import Mathlib

/-!
Rootex: level lifecycle, scene-graph traversal and particle pool.

A shallow embedding of `rootex/app/level_manager.cpp`, of the traversal and the setup in
`rootex/framework/components/visual/visual_component.cpp`, and of the particle pool in
`rootex/framework/components/visual/cpu_particles_component.cpp`.

The level manager is stateful and talks to several collaborators that live in
other files (the resource loader, the system registry, the entity factory, the
hierarchy system, the OS layer and the JSON library).  The embedding threads an
explicit `World` through every operation.  Calls made on collaborators are
appended, in program order, to `World.calls`; the part of a collaborator's
behaviour the manager depends on is a field of `External`.
-/

namespace Rootex

/-! ## JSON documents -/

/-- A JSON value, as held in `LevelDescription::m_LevelSettings`. -/
inductive JSON where
  | null
  | boolean (b : Bool)
  | number (n : Int)
  | string (s : String)
  | array (elems : List JSON)
  | object (members : List (String × JSON))

/-- The test `json.find(key) != json.end()` followed by `json[key]`: the member stored under
`key`. On a value that is not an object `find` returns `end()`. -/
def JSON.find (j : JSON) (key : String) : Option JSON :=
  match j with
  | .object members => (members.find? (fun m => m.1 == key)).map (fun m => m.2)
  | _ => none

/-- The values a range-`for` over a JSON value visits: the elements of an array, the
member values of an object, nothing for `null`, and the value itself for a primitive. -/
def JSON.items : JSON → List JSON
  | .null => []
  | .array elems => elems
  | .object members => members.map (fun m => m.2)
  | v => [v]

/-- The implicit conversion of a JSON value to `String`; it throws unless the value is a string. -/
def JSON.toStr? : JSON → Option String
  | .string s => some s
  | _ => none

/-! ## Level descriptions -/

/-- The exceptions that leave `LevelDescription::LevelDescription(const String&)`. -/
inductive LevelError where
  | missingFile (path : String)
  | parseError (path : String)
  | typeError (path : String)
  deriving DecidableEq, Repr

/-- The class `LevelDescription`. The settings file is held by its path; `none` is `nullptr`. -/
structure LevelDescription where
  m_LevelName : String
  m_LevelSettingsFile : Option String
  m_LevelSettings : JSON
  m_Preloads : List String

/-- The default constructor `LevelDescription::LevelDescription()`. -/
def LevelDescription.new : LevelDescription :=
  { m_LevelName := "", m_LevelSettingsFile := none, m_LevelSettings := JSON.null, m_Preloads := [] }

/-- The result of `FilePath(path).filename().string()`: the characters after the last `/`. -/
def filename (path : String) : String :=
  String.mk ((path.toList.reverse.takeWhile (fun c => c != '/')).reverse)

/-- The loop `for (auto& path : m_LevelSettings["preload"]) m_Preloads.push_back(path);`.
It fails when an item does not convert to a string. -/
def pushPreloads : List JSON → List String → Option (List String)
  | [], acc => some acc
  | path :: rest, acc =>
    match path.toStr? with
    | some s => pushPreloads rest (acc ++ [s])
    | none => none

/-! ## Systems -/

/-- A registered `System`: the object is identified by its name and carries its active flag. -/
structure System where
  name : String
  m_IsActive : Bool
  deriving DecidableEq, Repr

/-- The result of `System::GetSystems()`: the priority buckets in the iteration order of the map,
each with its systems in registration order. -/
abbrev Registry := List (Int × List System)

/-- The representation invariant of the ordered map behind `System::GetSystems()`:
iteration visits strictly ascending keys. -/
def Registry.Ordered (r : Registry) : Prop :=
  (r.map (fun b => b.1)).Pairwise (fun a b => a < b)

/-- All registered systems with the key of their bucket, in the order the nested loops
`for (auto& [order, systems] : ...) for (auto& system : systems)` visit them. -/
def Registry.flatten (r : Registry) : List (Int × System) :=
  r.flatMap (fun b => b.2.map (fun s => (b.1, s)))

/-! ## Collaborators -/

/-- The behaviour of code outside the files embedded here that the level manager relies on.
The bodies of the virtual methods of a system are not known; a call is recorded in the log and
may change the active flag of the system it is called on. -/
structure External where
  /-- The function `JSON::json::parse`; `none` when it throws. -/
  parse : String → Option JSON
  /-- The text `json.dump(1, '\t')` produces. -/
  dump : JSON → String
  /-- The value `ResourceLoader::Preload(paths, progress)` returns. -/
  Preload : List String → Int
  /-- The active flag of a system after its virtual `System::setConfig` has run on it. -/
  setConfig : System → JSON → Bool → Bool
  /-- The active flag of a system after its virtual `System::begin` has run on it. -/
  begin : System → Bool
  /-- The active flag of a system after its virtual `System::end` has run on it. -/
  endSystem : System → Bool

/-- A call made on a collaborator. System calls carry the key of the bucket the loop is in. -/
inductive Call where
  | systemEnd (order : Int) (system : String)
  | systemSetConfig (order : Int) (system : String) (settings : JSON) (openInEditor : Bool)
  | systemBegin (order : Int) (system : String)
  | destroyEntities
  | rootHierarchyClear
  | preload (paths : List String)
  | unload (paths : List String)
  | createDirectoryName (path : String)
  | createFileName (path : String) (text : String)
  | reload (file : String)
  | createEntity (file : String)
  | setupLiveEntities
  | print (msg : String)

/-! ## The world -/

/-- The data members of `LevelManager`. -/
structure LevelManager where
  m_CurrentLevel : LevelDescription
  m_ToUnload : List String

/-- Everything the level manager reads or writes. -/
structure World where
  manager : LevelManager
  /-- The value of `System::GetSystems()`. -/
  systems : Registry
  /-- The text behind `ResourceLoader::CreateTextResourceFile(path)->getString()`, by path. -/
  files : List (String × String)
  /-- The paths for which `OS::IsExists` holds. -/
  paths : List String
  /-- The value of `OS::GetFilesInDirectory`, by directory. -/
  listing : String → List String
  /-- The text resources for which `isDirty()` holds. -/
  dirty : List String
  /-- The live entities of the entity factory, by the file they were created from. -/
  liveEntities : List String
  /-- The children of the root hierarchy component. -/
  rootChildren : List String
  /-- The calls made on collaborators so far, oldest first. -/
  calls : List Call

/-- Append one call to the log. -/
def World.log (w : World) (c : Call) : World :=
  { w with calls := w.calls ++ [c] }

/-- Modelled from the spec: `ResourceLoader::CreateTextResourceFile` is defined in
`resource_loader.cpp`, which is not among the files embedded here. The text of the settings
document at a path; a missing document fails the operation that asked for it, and `none`
stands for that failure. -/
def World.getString (w : World) (path : String) : Option String :=
  (w.files.find? (fun f => f.1 == path)).map (fun f => f.2)

/-- The constructor `LevelDescription::LevelDescription(const String& levelPath)`. -/
def LevelDescription.load (x : External) (w : World) (levelPath : String) :
    Except LevelError LevelDescription :=
  let m_LevelName := filename levelPath
  let file := levelPath ++ "/" ++ m_LevelName ++ ".level.json"
  match w.getString file with
  | none => .error (.missingFile file)
  | some text =>
    match x.parse text with
    | none => .error (.parseError file)
    | some m_LevelSettings =>
      match m_LevelSettings.find "preload" with
      | none =>
        .ok { m_LevelName := m_LevelName, m_LevelSettingsFile := some file,
              m_LevelSettings := m_LevelSettings, m_Preloads := [] }
      | some preload =>
        match pushPreloads preload.items [] with
        | none => .error (.typeError file)
        | some m_Preloads =>
          .ok { m_LevelName := m_LevelName, m_LevelSettingsFile := some file,
                m_LevelSettings := m_LevelSettings, m_Preloads := m_Preloads }

/-! ## The level manager -/

/-- What an operation leaves behind: its return value or the exception that left it,
and the world at that point. -/
structure Outcome (α : Type) where
  result : Except LevelError α
  world : World

/-- Modelled from the spec: `LevelManager::isAnyLevelOpen()` is declared in `level_manager.h`,
which is not among the files embedded here. The spec's data model says that a
default-constructed descriptor means "no level open" and that it has an empty name; the
predicate is: the current descriptor's name is not empty. -/
def isAnyLevelOpen (m : LevelManager) : Bool :=
  m.m_CurrentLevel.m_LevelName != ""

/-- The inner loop of the three system broadcasts: visit the systems of one bucket in order,
call `f` on each, and collect the calls made and the systems as the calls left them. -/
def forBucket (f : Int → System → Option Call × System) (order : Int) :
    List System → List Call × List System
  | [] => ([], [])
  | system :: rest =>
    let r := f order system
    let rs := forBucket f order rest
    (r.1.toList ++ rs.1, r.2 :: rs.2)

/-- The outer loop `for (auto& [order, systems] : System::GetSystems())`. -/
def forSystems (f : Int → System → Option Call × System) : Registry → List Call × Registry
  | [] => ([], [])
  | (order, systems) :: rest =>
    let r := forBucket f order systems
    let rs := forSystems f rest
    (r.1 ++ rs.1, (order, r.2) :: rs.2)

/-- Run a broadcast loop over the registered systems of a world. -/
def World.broadcast (w : World) (f : Int → System → Option Call × System) : World :=
  let r := forSystems f w.systems
  { w with systems := r.2, calls := w.calls ++ r.1 }

/-- The loop body `system->end();`. -/
def endBody (x : External) (order : Int) (system : System) : Option Call × System :=
  (some (.systemEnd order system.name), { system with m_IsActive := x.endSystem system })

/-- The loop body `system->setConfig(m_CurrentLevel.getLevelSettings(), openInEditor);`. -/
def setConfigBody (x : External) (settings : JSON) (openInEditor : Bool)
    (order : Int) (system : System) : Option Call × System :=
  (some (.systemSetConfig order system.name settings openInEditor),
   { system with m_IsActive := x.setConfig system settings openInEditor })

/-- The loop body `if (system->isActive()) system->begin();`. -/
def beginBody (x : External) (order : Int) (system : System) : Option Call × System :=
  if system.m_IsActive then
    (some (.systemBegin order system.name), { system with m_IsActive := x.begin system })
  else (none, system)

/-- Modelled from the spec: `EntityFactory::destroyEntities` is defined in
`entity_factory.cpp`, which is not among the files embedded here. It destroys all live
entities. -/
def EntityFactory.destroyEntities (w : World) : World :=
  { w.log .destroyEntities with liveEntities := [] }

/-- Modelled from the spec: `HierarchyComponent::clear` is defined in
`hierarchy_component.cpp`, which is not among the files embedded here. Called on the root
hierarchy component, it clears the hierarchy root's children. -/
def HierarchyComponent.clear (w : World) : World :=
  { w.log .rootHierarchyClear with rootChildren := [] }

/-- The method `LevelManager::endLevel`. -/
def endLevel (x : External) (w : World) : World :=
  if isAnyLevelOpen w.manager then
    let w1 := w.broadcast (endBody x)
    let w2 := EntityFactory.destroyEntities w1
    let w3 := HierarchyComponent.clear w2
    w3.log (.print ("Ended level: " ++ (w3.manager.m_CurrentLevel.m_LevelSettingsFile.getD "")))
  else w

/-- The search `std::find(v.begin(), v.end(), value) == v.end()`. -/
def notFound (v : List String) (value : String) : Bool :=
  !(v.elem value)

/-- The loop of `preloadLevel` that fills `m_ToUnload`, started from the cleared vector. -/
def computeToUnload (current newLevel : List String) : List String :=
  current.foldl (fun m_ToUnload preloaded =>
    if notFound newLevel preloaded then m_ToUnload ++ [preloaded] else m_ToUnload) []

/-- The method `LevelManager::preloadLevel`. Its parameter `progress` is handed to the resource
loader untouched and its parameter `openInEditor` is not used, so neither is a parameter here.
When the constructor of the new descriptor throws, `m_ToUnload` has not been touched yet. -/
def preloadLevel (x : External) (w : World) (levelPath : String) : Outcome Int :=
  match LevelDescription.load x w levelPath with
  | .error e => { result := .error e, world := w }
  | .ok newLevel =>
    let m_ToUnload := computeToUnload w.manager.m_CurrentLevel.m_Preloads newLevel.m_Preloads
    let w1 := { w with manager := { w.manager with m_ToUnload := m_ToUnload } }
    { result := .ok (x.Preload newLevel.m_Preloads)
      world := w1.log (.preload newLevel.m_Preloads) }

/-- The function `OS::IsExists`, read off the world. -/
def OS.IsExists (w : World) (path : String) : Bool :=
  w.paths.elem path

/-- Modelled from the spec: `OS::CreateDirectoryName` is defined in `os.cpp`, which is not
among the files embedded here. It creates the directory, which exists afterwards. -/
def OS.CreateDirectoryName (w : World) (path : String) : World :=
  { w.log (.createDirectoryName path) with paths := w.paths ++ [path] }

/-- The function `OS::GetFilesInDirectory`, read off the world. -/
def OS.GetFilesInDirectory (w : World) (directory : String) : List String :=
  w.listing directory

/-- Modelled from the spec: `ResourceLoader::Reload` is defined in `resource_loader.cpp`, which
is not among the files embedded here. It reloads a stale text resource from backing storage,
after which the resource is not dirty. -/
def ResourceLoader.Reload (w : World) (file : String) : World :=
  { w.log (.reload file) with dirty := w.dirty.filter (fun f => f != file) }

/-- Modelled from the spec: `EntityFactory::createEntity` is defined in `entity_factory.cpp`,
which is not among the files embedded here. It materializes an entity definition file as a
live entity. -/
def EntityFactory.createEntity (w : World) (file : String) : World :=
  { w.log (.createEntity file) with liveEntities := w.liveEntities ++ [file] }

/-- The body of the loop over the entity files: reload the text resource when it is dirty,
then have the entity factory create the entity. -/
def createEntityFromFile (w : World) (entityFile : String) : World :=
  let w1 := if w.dirty.elem entityFile then ResourceLoader.Reload w entityFile else w
  EntityFactory.createEntity w1 entityFile

/-- The assignment `m_CurrentLevel = LevelDescription(levelPath);`, once the constructor has
returned `newLevel`. -/
def setCurrentLevel (w : World) (newLevel : LevelDescription) : World :=
  { w with manager := { w.manager with m_CurrentLevel := newLevel } }

/-- The statements of `openPreloadedLevel` between the assignment of `m_CurrentLevel` and the
activation loop: unload, make sure the directories exist, create the entities, configure
every system, set up the live entities and print. -/
def materialize (x : External) (w : World) (levelPath : String) (openInEditor : Bool) : World :=
  let w1 := w.log (.unload w.manager.m_ToUnload)
  let w2 := if !OS.IsExists w1 levelPath then OS.CreateDirectoryName w1 levelPath else w1
  let w3 :=
    if !OS.IsExists w2 (levelPath ++ "/entities/") then
      OS.CreateDirectoryName w2 (levelPath ++ "/entities/")
    else w2
  let w4 := (OS.GetFilesInDirectory w3 (levelPath ++ "/entities/")).foldl createEntityFromFile w3
  let w5 := w4.broadcast (setConfigBody x w4.manager.m_CurrentLevel.m_LevelSettings openInEditor)
  let w6 := w5.log .setupLiveEntities
  w6.log (.print ("Loaded level: " ++ levelPath))

/-- The activation loop that ends `openPreloadedLevel`. -/
def activate (x : External) (w : World) : World :=
  w.broadcast (beginBody x)

/-- The method `LevelManager::openPreloadedLevel`. When the constructor of the new descriptor
throws, the assignment to `m_CurrentLevel` and everything after it are not executed. -/
def openPreloadedLevel (x : External) (w : World) (levelPath : String) (openInEditor : Bool) :
    Outcome Unit :=
  let w1 := endLevel x w
  match LevelDescription.load x w1 levelPath with
  | .error e => { result := .error e, world := w1 }
  | .ok newLevel =>
    { result := .ok ()
      world := activate x (materialize x (setCurrentLevel w1 newLevel) levelPath openInEditor) }

/-- The method `LevelManager::openLevel`. The loop `while (progress.load() != totalPreloads)`
waits for the resource loader, which runs elsewhere; the embedding covers the executions in
which the wait ends, and the wait itself changes nothing the manager owns. -/
def openLevel (x : External) (w : World) (levelPath : String) (openInEditor : Bool) :
    Outcome Unit :=
  let w1 := if isAnyLevelOpen w.manager then endLevel x w else w
  let preloaded := preloadLevel x w1 levelPath
  match preloaded.result with
  | .error e => { result := .error e, world := preloaded.world }
  | .ok totalPreloads =>
    let w2 := preloaded.world.log
      (.print ("Preloaded " ++ toString totalPreloads ++ " new resources"))
    openPreloadedLevel x w2 levelPath openInEditor

/-- The assignment `json[key] = value`: on `null` it makes an object, on an object it replaces
the member stored under `key` or adds one. On any other value the library throws; that case
does not arise in this file and leaves the value as it is. -/
def JSON.set (j : JSON) (key : String) (value : JSON) : JSON :=
  match j with
  | .null => .object [(key, value)]
  | .object members =>
    if members.any (fun m => m.1 == key) then
      .object (members.map (fun m => if m.1 == key then (key, value) else m))
    else .object (members ++ [(key, value)])
  | other => other

/-- The document `newLevelJSON` that `createLevel` builds. The macro `ROOT_ENTITY_ID` is
defined in a header that is not among the files embedded here and is a parameter. -/
def newLevelJSON (ROOT_ENTITY_ID : Int) : JSON :=
  ((((JSON.null.set "camera" (.number ROOT_ENTITY_ID)).set "inputSchemes" (.array [])).set
    "startScheme" (.string "")).set "listener" (.number ROOT_ENTITY_ID)).set "preload" (.array [])

/-- Modelled from the spec: `OS::CreateFileName` is defined in `os.cpp`, which is not among the
files embedded here. It creates the file at the path, and the text streamed into the file is
the document a later read of that path yields. -/
def OS.CreateFileName (w : World) (path text : String) : World :=
  { w.log (.createFileName path text) with
    files := (path, text) :: w.files.filter (fun f => f.1 != path)
    paths := w.paths ++ [path] }

/-- The method `LevelManager::createLevel`. -/
def createLevel (x : External) (ROOT_ENTITY_ID : Int) (w : World) (newLevelName : String) :
    World :=
  let w1 := OS.CreateDirectoryName w ("game/assets/levels/" ++ newLevelName)
  let w2 := OS.CreateDirectoryName w1 ("game/assets/levels/" ++ newLevelName ++ "/entities/")
  let w3 := OS.CreateFileName w2
    ("game/assets/levels/" ++ newLevelName ++ "/" ++ newLevelName ++ ".level.json")
    (x.dump (newLevelJSON ROOT_ENTITY_ID))
  w3.log (.print ("Created new level: " ++ "game/assets/levels/" ++ newLevelName))

/-- One call on the public surface of the level manager. -/
inductive Request where
  | preloadLevel (levelPath : String)
  | openLevel (levelPath : String) (openInEditor : Bool)
  | openPreloadedLevel (levelPath : String) (openInEditor : Bool)
  | endLevel

/-- Serve one request; an exception leaves the world as it was when it was thrown. -/
def serve (x : External) (w : World) : Request → World
  | .preloadLevel levelPath => (preloadLevel x w levelPath).world
  | .openLevel levelPath openInEditor => (openLevel x w levelPath openInEditor).world
  | .openPreloadedLevel levelPath openInEditor =>
    (openPreloadedLevel x w levelPath openInEditor).world
  | .endLevel => endLevel x w

/-- Serve a sequence of requests, first to last. -/
def serveAll (x : External) (w : World) (requests : List Request) : World :=
  requests.foldl (serve x) w

/-- The lists passed to `ResourceLoader::Unload`, oldest first. -/
def unloads (calls : List Call) : List (List String) :=
  calls.filterMap (fun c => match c with | .unload paths => some paths | _ => none)

/-- The lists passed to `ResourceLoader::Preload`, oldest first. -/
def preloads (calls : List Call) : List (List String) :=
  calls.filterMap (fun c => match c with | .preload paths => some paths | _ => none)

/-- The `end()` calls of a log, as bucket key and system name, oldest first. -/
def endCalls (calls : List Call) : List (Int × String) :=
  calls.filterMap (fun c =>
    match c with | .systemEnd order system => some (order, system) | _ => none)

/-- The `begin()` calls of a log, as bucket key and system name, oldest first. -/
def beginCalls (calls : List Call) : List (Int × String) :=
  calls.filterMap (fun c =>
    match c with | .systemBegin order system => some (order, system) | _ => none)

/-- The `setConfig` calls of a log with their arguments, oldest first. -/
def setConfigCalls (calls : List Call) : List (Int × String × JSON × Bool) :=
  calls.filterMap (fun c =>
    match c with
    | .systemSetConfig order system settings openInEditor =>
      some (order, system, settings, openInEditor)
    | _ => none)

/-- The files passed to `EntityFactory::createEntity`, oldest first. -/
def createEntityCalls (calls : List Call) : List String :=
  calls.filterMap (fun c => match c with | .createEntity file => some file | _ => none)

/-- The registered systems as bucket key and system name, in visiting order. -/
def Registry.names (r : Registry) : List (Int × String) :=
  r.flatten.map (fun s => (s.1, s.2.name))

/-! ## The scene graph traversal -/

/-- The enumeration `Shader::ConstantBufferType`, as far as the traversal uses it. -/
inductive ConstantBufferType where
  | Model
  | View
  | Projection
  deriving DecidableEq, Repr

/-- A call the traversal makes on the graph, on a material or on the renderer. -/
inductive RenderCall (M : Type) where
  | pushMatrix (transform : M)
  | popMatrix
  | setShaderConstantBuffer (entity : String) (type : ConstantBufferType) (value : M)
  | draw (entity : String)
  deriving DecidableEq, Repr

/-- The part of `VisualComponentGraph` the traversal touches: the transformation stack (its
top is the last element), the matrices of the camera, and the calls made so far. -/
structure VisualComponentGraph (M : Type) where
  m_TransformationStack : List M
  view : M
  projection : M
  calls : List (RenderCall M)

/-- The class `VisualComponent`, as far as the traversal reads it. The transform component
pointer of its attributes is `none` when null and otherwise carries the transform it yields;
of the hierarchy component pointer, which only `setup` touches, it is kept whether it is set. -/
structure VisualComponent (M : Type) where
  m_IsVisible : Bool
  m_TransformComponent : Option M
  m_HierarchyComponent : Bool := false

/-- An entity with the components the traversal asks for; the children are those of its
hierarchy component. A missing component is `none`. -/
inductive Entity (M : Type) where
  | mk (name : String) (transformComponent : Option M)
      (visualComponent : Option (VisualComponent M))
      (hierarchyComponent : Option (List (Entity M)))

/-- The name of an entity. -/
def Entity.name {M : Type} : Entity M → String
  | .mk name _ _ _ => name

/-- The result of `getComponent<VisualComponent>()`. -/
def Entity.visualComponent {M : Type} : Entity M → Option (VisualComponent M)
  | .mk _ _ visualComponent _ => visualComponent

/-- The result of `getComponent<HierarchyComponent>()`, as the list of children. -/
def Entity.hierarchyComponent {M : Type} : Entity M → Option (List (Entity M))
  | .mk _ _ _ hierarchyComponent => hierarchyComponent

section Traversal

variable {M : Type} [Mul M] [One M]

/-- Modelled from the spec: `VisualComponentGraph::getTopMatrix` is defined in
`visual_component_graph.cpp`, which is not among the files embedded here. The top of the
stack is the cumulative transform of the node being visited; before any push (depth 0) the
cumulative transform is the identity. -/
def VisualComponentGraph.getTopMatrix (g : VisualComponentGraph M) : M :=
  g.m_TransformationStack.getLast?.getD 1

/-- Modelled from the spec: `VisualComponentGraph::pushMatrix` is defined in
`visual_component_graph.cpp`, which is not among the files embedded here. It pushes the
cumulative transform, parent-cumulative times local, onto the transform stack. -/
def VisualComponentGraph.pushMatrix (g : VisualComponentGraph M) (transform : M) :
    VisualComponentGraph M :=
  { g with
    m_TransformationStack := g.m_TransformationStack ++ [g.getTopMatrix * transform]
    calls := g.calls ++ [.pushMatrix transform] }

/-- Modelled from the spec: `VisualComponentGraph::popMatrix` is defined in
`visual_component_graph.cpp`, which is not among the files embedded here. It pops the
transform stack, restoring the parent's cumulative transform. -/
def VisualComponentGraph.popMatrix (g : VisualComponentGraph M) : VisualComponentGraph M :=
  { g with
    m_TransformationStack := g.m_TransformationStack.dropLast
    calls := g.calls ++ [.popMatrix] }

/-- A call of `m_Attributes.m_Material->setShaderConstantBuffer(type, value)`. -/
def setShaderConstantBuffer (g : VisualComponentGraph M) (entity : String)
    (type : ConstantBufferType) (value : M) : VisualComponentGraph M :=
  { g with calls := g.calls ++ [.setShaderConstantBuffer entity type value] }

/-- The method `VisualComponent::preRender`; it always returns true. -/
def preRender (entity : String) (this : VisualComponent M) (g : VisualComponentGraph M) :
    VisualComponentGraph M :=
  match this.m_TransformComponent with
  | some transform =>
    let g1 := g.pushMatrix transform
    setShaderConstantBuffer g1 entity .Model g1.getTopMatrix
  | none =>
    let g1 := g.pushMatrix 1
    setShaderConstantBuffer g1 entity .Model g1.getTopMatrix

/-- The method `VisualComponent::isVisible`. -/
def isVisible (this : VisualComponent M) (_g : VisualComponentGraph M) : Bool :=
  this.m_IsVisible

/-- The method `VisualComponent::render`. -/
def render (entity : String) (g : VisualComponentGraph M) : VisualComponentGraph M :=
  { g with calls := g.calls ++ [.draw entity] }

/-- The method `VisualComponent::postRender`. -/
def postRender (g : VisualComponentGraph M) : VisualComponentGraph M :=
  g.popMatrix

mutual
/-- The method `VisualComponent::renderChildren`, called on the component `this` whose owner
is `m_Owner`. The result is `none` when a null pointer is dereferenced: the owner has no
hierarchy component, or a child has no visual component. -/
def renderChildren (this : VisualComponent M) (m_Owner : Entity M)
    (g : VisualComponentGraph M) : Option (VisualComponentGraph M) :=
  match m_Owner with
  | .mk name _ _ hierarchyComponent =>
    let g1 :=
      if isVisible this g then
        setShaderConstantBuffer (setShaderConstantBuffer g name .View g.view)
          name .Projection g.projection
      else g
    match hierarchyComponent with
    | none => none
    | some m_Children => renderChildrenLoop m_Children g1
/-- The loop `for (auto& child : ...->m_Children)` of `renderChildren`. -/
def renderChildrenLoop (m_Children : List (Entity M)) (g : VisualComponentGraph M) :
    Option (VisualComponentGraph M) :=
  match m_Children with
  | [] => some g
  | .mk name transformComponent visualComponent hierarchyComponent :: rest =>
    match visualComponent with
    | none => none
    | some childVisualComponent =>
      let g1 := preRender name childVisualComponent g
      let g2 := if isVisible childVisualComponent g1 then render name g1 else g1
      match renderChildren childVisualComponent
          (.mk name transformComponent visualComponent hierarchyComponent) g2 with
      | none => none
      | some g3 => renderChildrenLoop rest (postRender g3)
end

mutual
/-- Every node below the given one, itself included, has a hierarchy component, and every
node strictly below it has a visual component. -/
def Entity.allVisual : Entity M → Bool
  | .mk _ _ _ none => false
  | .mk _ _ _ (some m_Children) => Entity.allVisualList m_Children
/-- The check of `Entity.allVisual` on a list of children. -/
def Entity.allVisualList : List (Entity M) → Bool
  | [] => true
  | .mk name transformComponent visualComponent hierarchyComponent :: rest =>
    visualComponent.isSome
      && Entity.allVisual (.mk name transformComponent visualComponent hierarchyComponent)
      && Entity.allVisualList rest
end

mutual
/-- The number of nodes strictly below an entity. -/
def Entity.descendants : Entity M → Nat
  | .mk _ _ _ none => 0
  | .mk _ _ _ (some m_Children) => Entity.descendantsList m_Children
/-- The number of nodes in a list of subtrees. -/
def Entity.descendantsList : List (Entity M) → Nat
  | [] => 0
  | .mk name transformComponent visualComponent hierarchyComponent :: rest =>
    1 + Entity.descendants (.mk name transformComponent visualComponent hierarchyComponent)
      + Entity.descendantsList rest
end

/-- The number of `pushMatrix` calls in a log. -/
def pushCount (calls : List (RenderCall M)) : Nat :=
  (calls.filter (fun c => match c with | .pushMatrix _ => true | _ => false)).length

/-- The number of `popMatrix` calls in a log. -/
def popCount (calls : List (RenderCall M)) : Nat :=
  (calls.filter (fun c => match c with | .popMatrix => true | _ => false)).length

end Traversal

/-! ## A concrete scenario -/

/-- The settings of level A. -/
def docA : JSON :=
  .object [("camera", .number 1), ("preload", .array [.string "mesh1", .string "tex1"])]

/-- The settings of level B. -/
def docB : JSON :=
  .object [("preload", .array [.string "tex1", .string "tex2"]), ("listener", .number 1)]

/-- Collaborators for the scenario: three documents parse, a document with a `startScheme` is
dumped as the third, `Preload` returns the number of paths it is given, and `EditorSystem` is
active exactly in editor mode. -/
def demoExternal : External where
  parse := fun text =>
    if text == "settings of A" then some docA
    else if text == "settings of B" then some docB
    else if text == "default settings" then some (newLevelJSON 1)
    else none
  dump := fun j =>
    match j.find "startScheme" with
    | some _ => "default settings"
    | none => "other settings"
  Preload := fun paths => paths.length
  setConfig := fun system _ openInEditor =>
    if system.name == "EditorSystem" then openInEditor else system.m_IsActive
  begin := fun system => system.m_IsActive
  endSystem := fun system => system.m_IsActive

/-- Level A as its constructor builds it. -/
def levelA : LevelDescription :=
  { m_LevelName := "A", m_LevelSettingsFile := some "levels/A/A.level.json",
    m_LevelSettings := docA, m_Preloads := ["mesh1", "tex1"] }

/-- Level B as its constructor builds it. -/
def levelB : LevelDescription :=
  { m_LevelName := "B", m_LevelSettingsFile := some "levels/B/B.level.json",
    m_LevelSettings := docB, m_Preloads := ["tex1", "tex2"] }

/-- A world with no level open; the settings file of level C does not parse and level D has
no settings file. -/
def demoStart : World :=
  { manager := { m_CurrentLevel := LevelDescription.new, m_ToUnload := [] }
    systems := [(1, [{ name := "PhysicsSystem", m_IsActive := true },
                     { name := "EditorSystem", m_IsActive := true }]),
                (3, [{ name := "RenderSystem", m_IsActive := false }])]
    files := [("levels/A/A.level.json", "settings of A"),
              ("levels/B/B.level.json", "settings of B"),
              ("levels/C/C.level.json", "not a document")]
    paths := ["levels/A", "levels/A/entities/", "levels/B"]
    listing := fun directory =>
      if directory == "levels/A/entities/" then ["levels/A/entities/player.entity.json"]
      else if directory == "levels/B/entities/" then
        ["levels/B/entities/door.entity.json", "levels/B/entities/key.entity.json"]
      else []
    dirty := ["levels/B/entities/key.entity.json"]
    liveEntities := []
    rootChildren := []
    calls := [] }

/-- A world in which level A is open. -/
def demoOpenA : World :=
  { demoStart with
    manager := { m_CurrentLevel := levelA, m_ToUnload := [] }
    liveEntities := ["levels/A/entities/player.entity.json"]
    rootChildren := ["player"] }

/-- A visible leaf with a transform component. -/
def demoGrandchild : Entity Int :=
  .mk "grandchild" (some 5) (some { m_IsVisible := true, m_TransformComponent := some 5 })
    (some [])

/-- A hidden node without a transform component, with one child. -/
def demoChild : Entity Int :=
  .mk "child1" none (some { m_IsVisible := false, m_TransformComponent := none })
    (some [demoGrandchild])

/-- A visible leaf next to `child1`. -/
def demoSibling : Entity Int :=
  .mk "child2" (some 3) (some { m_IsVisible := true, m_TransformComponent := some 3 }) (some [])

/-- The visual component of the root of the scenario's hierarchy. -/
def demoRootVisual : VisualComponent Int :=
  { m_IsVisible := true, m_TransformComponent := some 2 }

/-- A hierarchy root over a chain of two nodes and a leaf; integers stand for the matrices. -/
def demoRoot : Entity Int :=
  .mk "root" (some 2) (some demoRootVisual) (some [demoChild, demoSibling])

/-- A node with zero children. -/
def demoLeaf : Entity Int :=
  .mk "leaf" (some 2) (some demoRootVisual) (some [])

/-- A graph before the traversal: empty stack, nothing called yet. -/
def demoGraph : VisualComponentGraph Int :=
  { m_TransformationStack := [], view := 7, projection := 11, calls := [] }

/-! ## Reading the calls of a traversal -/

section TraversalReading

variable {M : Type}

/-- The entities passed to the renderer's `draw`, oldest first. -/
def drawCalls (calls : List (RenderCall M)) : List String :=
  calls.filterMap (fun c => match c with | .draw entity => some entity | _ => none)

/-- The visibility flag of the visual component of an entity; false when it has none. -/
def Entity.flagSet (e : Entity M) : Bool :=
  match e.visualComponent with
  | some visualComponent => visualComponent.m_IsVisible
  | none => false

mutual
/-- The nodes strictly below an entity in depth-first pre-order: each child, in sibling order,
followed by the nodes below it. -/
def Entity.preorderBelow : Entity M → List (Entity M)
  | .mk _ _ _ none => []
  | .mk _ _ _ (some m_Children) => Entity.preorderList m_Children
/-- The nodes of a list of subtrees in depth-first pre-order. -/
def Entity.preorderList : List (Entity M) → List (Entity M)
  | [] => []
  | .mk name transformComponent visualComponent hierarchyComponent :: rest =>
    .mk name transformComponent visualComponent hierarchyComponent
      :: (Entity.preorderBelow (.mk name transformComponent visualComponent hierarchyComponent)
        ++ Entity.preorderList rest)
end

/-- Every `draw` in the list is directly followed by the View update and then the Projection
update on the material of the entity drawn, with the given matrices. -/
def cameraAfterDraw (view projection : M) : List (RenderCall M) → Prop
  | [] => True
  | .draw entity :: rest =>
    rest.take 2 = [.setShaderConstantBuffer entity .View view,
                   .setShaderConstantBuffer entity .Projection projection]
      ∧ cameraAfterDraw view projection rest
  | .pushMatrix _ :: rest => cameraAfterDraw view projection rest
  | .popMatrix :: rest => cameraAfterDraw view projection rest
  | .setShaderConstantBuffer _ _ _ :: rest => cameraAfterDraw view projection rest

/-- The result of `getComponent<TransformComponent>()`. -/
def Entity.transformComponent : Entity M → Option M
  | .mk _ transformComponent _ _ => transformComponent

/-- The method `VisualComponent::setup`, called on a component whose owner pointer is `m_Owner`
(`none` is null). It returns the status and the component with the two pointers it stored;
the warning it prints is not recorded. -/
def setup (this : VisualComponent M) (m_Owner : Option (Entity M)) :
    Bool × VisualComponent M :=
  match m_Owner with
  | some owner =>
    let this1 := { this with m_TransformComponent := owner.transformComponent }
    let status1 := if this1.m_TransformComponent.isNone then false else true
    let this2 := { this1 with m_HierarchyComponent := owner.hierarchyComponent.isSome }
    let status2 := if this2.m_HierarchyComponent == false then false else status1
    (status2, this2)
  | none => (true, this)

end TraversalReading

/-! ## The particle pool -/

/-- A particle of the pool. Its transform, velocity, colours, sizes and life times are
floating-point values that never reach the pool index; only the active flag is kept. -/
structure Particle where
  m_IsActive : Bool
  deriving DecidableEq, Repr

/-- The pool of `CPUParticlesComponent` and the index into it. The index is an unsigned
integer whose width is fixed by a header that is not among the files embedded here; the width
is the parameter `w` of the operations. -/
structure CPUParticlesComponent where
  m_ParticlePool : List Particle
  m_PoolIndex : Nat
  deriving DecidableEq, Repr

/-- The call `m_ParticlePool.resize(poolSize)`: the first `poolSize` particles stay, missing
ones are value-initialized. -/
def resize (m_ParticlePool : List Particle) (poolSize : Nat) : List Particle :=
  (m_ParticlePool ++ List.replicate poolSize ({ m_IsActive := false } : Particle)).take poolSize

/-- The method `CPUParticlesComponent::expandPool`. The subtraction `poolSize - 1` is unsigned
and wraps at zero. -/
def expandPool (w : Nat) (this : CPUParticlesComponent) (poolSize : Nat) :
    CPUParticlesComponent :=
  { m_ParticlePool := resize this.m_ParticlePool poolSize
    m_PoolIndex := (poolSize + 2 ^ w - 1) % 2 ^ w }

/-- The method `CPUParticlesComponent::emit`, as far as the pool and its index go. The result
is `none` when `m_ParticlePool[m_PoolIndex]` is out of bounds or the pool is empty, in which
case the remainder has a zero divisor. The decrement `--m_PoolIndex` wraps at the width of the
index. The method also dereferences `m_TransformComponent`, which `setup` has stored. -/
def emit (w : Nat) (this : CPUParticlesComponent) : Option CPUParticlesComponent :=
  if this.m_PoolIndex < this.m_ParticlePool.length then
    let m_ParticlePool :=
      this.m_ParticlePool.set this.m_PoolIndex ({ m_IsActive := true } : Particle)
    if m_ParticlePool.length = 0 then none
    else
      some { m_ParticlePool := m_ParticlePool
             m_PoolIndex :=
               (((this.m_PoolIndex + 2 ^ w - 1) % 2 ^ w) % m_ParticlePool.length) % 2 ^ w }
  else none

/-- A number of `emit` calls in a row; `none` as soon as one of them fails. -/
def emitTimes (w : Nat) : Nat → CPUParticlesComponent → Option CPUParticlesComponent
  | 0, this => some this
  | count + 1, this =>
    match emit w this with
    | some next => emitTimes w count next
    | none => none

/-- A component before its constructor has called `expandPool`. -/
def demoParticles : CPUParticlesComponent :=
  { m_ParticlePool := [], m_PoolIndex := 0 }

/-- A graph in which the traversal of the scenario's root starts: the stack holds the
cumulative transform of the root. -/
def demoGraphAtRoot : VisualComponentGraph Int :=
  { m_TransformationStack := [2], view := 7, projection := 11, calls := [] }

/-! ## Reading sequences of requests and the nesting of pushes and pops -/

/-- The path for which the pending to-unload list was last computed while a sequence of
requests is served: the path of the last `preloadLevel` or `openLevel` in it whose descriptor
loaded, and `last` when there is none. -/
def lastPreloaded (x : External) : World → List Request → Option String → Option String
  | _, [], last => last
  | w, request :: rest, last =>
    lastPreloaded x (serve x w request) rest
      (match request with
       | .preloadLevel levelPath =>
         match LevelDescription.load x w levelPath with
         | .ok _ => some levelPath
         | .error _ => last
       | .openLevel levelPath _ =>
         match LevelDescription.load x w levelPath with
         | .ok _ => some levelPath
         | .error _ => last
       | .openPreloadedLevel _ _ => last
       | .endLevel => last)

/-- A change of the depth of the transformation stack. -/
inductive StackOp where
  | push
  | pop
  deriving DecidableEq, Repr

section Nesting

variable {M : Type}

/-- The `pushMatrix` and `popMatrix` calls of a log, oldest first, without their arguments. -/
def stackOps (calls : List (RenderCall M)) : List StackOp :=
  calls.filterMap (fun c =>
    match c with
    | .pushMatrix _ => some StackOp.push
    | .popMatrix => some StackOp.pop
    | _ => none)

mutual
/-- The pushes and pops of a traversal in which every node below the given one is entered
with one push and left with one pop, and the pushes and pops of the nodes below a node lie
between its own push and its own pop. -/
def Entity.nestingBelow : Entity M → List StackOp
  | .mk _ _ _ none => []
  | .mk _ _ _ (some m_Children) => Entity.nestingList m_Children
/-- The pushes and pops of `Entity.nestingBelow` for a list of subtrees, in sibling order. -/
def Entity.nestingList : List (Entity M) → List StackOp
  | [] => []
  | .mk name transformComponent visualComponent hierarchyComponent :: rest =>
    StackOp.push
      :: (Entity.nestingBelow (.mk name transformComponent visualComponent hierarchyComponent)
        ++ StackOp.pop :: Entity.nestingList rest)
end

end Nesting

/-! ## The resource diff -/

theorem computeToUnload_aux (next : List String) (prev acc : List String) :
    prev.foldl (fun m_ToUnload preloaded =>
      if notFound next preloaded then m_ToUnload ++ [preloaded] else m_ToUnload) acc
      = acc ++ prev.filter (fun r => notFound next r) := by
  induction prev generalizing acc with
  | nil => simp
  | cons p ps ih =>
    simp only [List.foldl_cons, List.filter_cons]
    rw [ih]
    by_cases hp : notFound next p = true
    · simp [hp]
    · simp [hp]

theorem computeToUnload_eq_filter (prev next : List String) :
    computeToUnload prev next = prev.filter (fun r => notFound next r) := by
  unfold computeToUnload
  rw [computeToUnload_aux]
  simp

theorem mem_computeToUnload (prev next : List String) (r : String) :
    r ∈ computeToUnload prev next ↔ (r ∈ prev ∧ r ∉ next) := by
  rw [computeToUnload_eq_filter]
  simp [List.mem_filter, notFound]

theorem preloadLevel_ok (x : External) (w : World) (levelPath : String)
    (newLevel : LevelDescription) (h : LevelDescription.load x w levelPath = .ok newLevel) :
    preloadLevel x w levelPath =
      { result := .ok (x.Preload newLevel.m_Preloads)
        world := ({ w with manager := { w.manager with
          m_ToUnload := computeToUnload w.manager.m_CurrentLevel.m_Preloads newLevel.m_Preloads } }
          : World).log (.preload newLevel.m_Preloads) } := by
  simp [preloadLevel, h]

theorem preloadLevel_error (x : External) (w : World) (levelPath : String)
    (e : LevelError) (h : LevelDescription.load x w levelPath = .error e) :
    preloadLevel x w levelPath = { result := .error e, world := w } := by
  simp [preloadLevel, h]

/-- The constructor of a descriptor reads nothing of the world but its files. -/
theorem load_congr (x : External) (w w1 : World) (levelPath : String)
    (h : w1.files = w.files) :
    LevelDescription.load x w1 levelPath = LevelDescription.load x w levelPath := by
  simp [LevelDescription.load, World.getString, h]

/-! ## The broadcast loops -/

theorem forBucket_keys (f : Int → System → Option Call × System) (order : Int)
    (systems : List System) :
    (forBucket f order systems).2.length = systems.length := by
  induction systems with
  | nil => rfl
  | cons s rest ih => simp [forBucket, ih]

theorem forSystems_keys (f : Int → System → Option Call × System) (r : Registry) :
    (forSystems f r).2.map (fun b => b.1) = r.map (fun b => b.1) := by
  induction r with
  | nil => rfl
  | cons b rest ih =>
    obtain ⟨order, systems⟩ := b
    simp [forSystems, ih]

theorem forBucket_names (f : Int → System → Option Call × System)
    (hf : ∀ order system, (f order system).2.name = system.name) (order : Int)
    (systems : List System) :
    (forBucket f order systems).2.map (fun s => (order, s.name))
      = systems.map (fun s => (order, s.name)) := by
  induction systems with
  | nil => rfl
  | cons s rest ih => simp [forBucket, ih, hf]

theorem Registry.names_cons (order : Int) (systems : List System) (rest : Registry) :
    Registry.names ((order, systems) :: rest)
      = systems.map (fun s => (order, s.name)) ++ Registry.names rest := by
  simp [Registry.names, Registry.flatten, List.flatMap_cons, List.map_append, List.map_map,
    Function.comp_def]

theorem forSystems_names (f : Int → System → Option Call × System)
    (hf : ∀ order system, (f order system).2.name = system.name) (r : Registry) :
    Registry.names (forSystems f r).2 = Registry.names r := by
  induction r with
  | nil => rfl
  | cons b rest ih =>
    obtain ⟨order, systems⟩ := b
    simp only [forSystems, Registry.names_cons, ih, forBucket_names f hf]

theorem endBody_name (x : External) (order : Int) (system : System) :
    (endBody x order system).2.name = system.name := rfl

theorem setConfigBody_name (x : External) (settings : JSON) (openInEditor : Bool)
    (order : Int) (system : System) :
    (setConfigBody x settings openInEditor order system).2.name = system.name := rfl

theorem beginBody_name (x : External) (order : Int) (system : System) :
    (beginBody x order system).2.name = system.name := by
  unfold beginBody
  split <;> rfl

/-- The calls of a broadcast whose body calls every system: one call per registered system,
in visiting order. -/
theorem forSystems_calls_all (f : Int → System → Option Call × System)
    (c : Int → String → Call)
    (hf : ∀ order system, (f order system).1 = some (c order system.name)) (r : Registry) :
    (forSystems f r).1 = (Registry.names r).map (fun s => c s.1 s.2) := by
  induction r with
  | nil => rfl
  | cons b rest ih =>
    obtain ⟨order, systems⟩ := b
    have hb : (forBucket f order systems).1 = systems.map (fun s => c order s.name) := by
      induction systems with
      | nil => rfl
      | cons s more ihs => simp [forBucket, ihs, hf]
    simp [forSystems, Registry.names_cons, ih, hb, List.map_append, List.map_map,
      Function.comp_def]

/-- The calls of the activation loop: one `begin()` per system that is active when visited. -/
theorem forSystems_calls_begin (x : External) (r : Registry) :
    (forSystems (beginBody x) r).1
      = (r.flatten.filter (fun s => s.2.m_IsActive)).map (fun s => .systemBegin s.1 s.2.name) := by
  induction r with
  | nil => rfl
  | cons b rest ih =>
    obtain ⟨order, systems⟩ := b
    have hb : (forBucket (beginBody x) order systems).1
        = ((systems.map (fun s => (order, s))).filter (fun s => s.2.m_IsActive)).map
            (fun s => .systemBegin s.1 s.2.name) := by
      induction systems with
      | nil => rfl
      | cons s more ihs =>
        by_cases hs : s.m_IsActive = true
        · simp [forBucket, beginBody, hs, ihs]
        · simp [forBucket, beginBody, hs, ihs]
    simp [forSystems, Registry.flatten, List.flatMap_cons, ih, hb, List.filter_append]

/-! ## Reading a log -/

theorem filterMap_map_none {α β γ : Type} (f : α → β) (g : β → Option γ) (l : List α)
    (h : ∀ a, g (f a) = none) : (l.map f).filterMap g = [] := by
  induction l with
  | nil => rfl
  | cons a rest ih => simp [List.filterMap_cons, h, ih]

theorem filterMap_map_some {α β γ : Type} (f : α → β) (g : β → Option γ) (k : α → γ)
    (l : List α) (h : ∀ a, g (f a) = some (k a)) : (l.map f).filterMap g = l.map k := by
  induction l with
  | nil => rfl
  | cons a rest ih => simp [List.filterMap_cons, h, ih]

theorem endCalls_append (a b : List Call) : endCalls (a ++ b) = endCalls a ++ endCalls b := by
  simp [endCalls]

theorem beginCalls_append (a b : List Call) :
    beginCalls (a ++ b) = beginCalls a ++ beginCalls b := by
  simp [beginCalls]

theorem setConfigCalls_append (a b : List Call) :
    setConfigCalls (a ++ b) = setConfigCalls a ++ setConfigCalls b := by
  simp [setConfigCalls]

theorem unloads_append (a b : List Call) : unloads (a ++ b) = unloads a ++ unloads b := by
  simp [unloads]

theorem createEntityCalls_append (a b : List Call) :
    createEntityCalls (a ++ b) = createEntityCalls a ++ createEntityCalls b := by
  simp [createEntityCalls]

/-- The `end()` calls of one pass over the registry, as a log. -/
theorem endCalls_ends (names : List (Int × String)) :
    endCalls (names.map (fun s => Call.systemEnd s.1 s.2)) = names := by
  unfold endCalls
  have h := filterMap_map_some (fun s : Int × String => Call.systemEnd s.1 s.2)
    (fun c => match c with | .systemEnd order system => some (order, system) | _ => none)
    (fun s => s) names (fun _ => rfl)
  rw [h]
  simp

theorem ordered_names (r : Registry) (h : r.Ordered) :
    ((Registry.names r).map (fun s => s.1)).Pairwise (fun a b => a ≤ b) := by
  induction r with
  | nil => simp [Registry.names, Registry.flatten]
  | cons b rest ih =>
    obtain ⟨order, systems⟩ := b
    unfold Registry.Ordered at h
    simp only [List.map_cons, List.pairwise_cons] at h
    rw [Registry.names_cons, List.map_append, List.pairwise_append]
    refine ⟨?_, ih h.2, ?_⟩
    · simp [List.map_map, Function.comp_def, List.pairwise_map]
    · intro a ha c hc
      simp only [List.map_map, List.mem_map, Function.comp_apply] at ha
      obtain ⟨s, _, rfl⟩ := ha
      simp only [Registry.names, Registry.flatten, List.map_map, List.mem_map, List.mem_flatMap,
        Function.comp_apply] at hc
      obtain ⟨p, ⟨b1, hb1, hp⟩, rfl⟩ := hc
      obtain ⟨s1, _, rfl⟩ := hp
      exact le_of_lt (h.1 b1.1 (List.mem_map.mpr ⟨b1, hb1, rfl⟩))

/-! ## Ending a level -/

theorem endLevel_closed (x : External) (w : World) (h : isAnyLevelOpen w.manager = false) :
    endLevel x w = w := by
  simp [endLevel, h]

theorem endLevel_open (x : External) (w : World) (h : isAnyLevelOpen w.manager = true) :
    endLevel x w =
      { w with
        systems := (forSystems (endBody x) w.systems).2
        liveEntities := []
        rootChildren := []
        calls := w.calls ++ (Registry.names w.systems).map (fun s => Call.systemEnd s.1 s.2)
          ++ [.destroyEntities, .rootHierarchyClear,
              .print ("Ended level: " ++ w.manager.m_CurrentLevel.m_LevelSettingsFile.getD "")] } := by
  simp [endLevel, h, World.broadcast, World.log, EntityFactory.destroyEntities,
    HierarchyComponent.clear,
    forSystems_calls_all (endBody x) (fun o n => Call.systemEnd o n) (fun _ _ => rfl)]

theorem endLevel_manager (x : External) (w : World) : (endLevel x w).manager = w.manager := by
  unfold endLevel
  split <;> rfl

theorem endLevel_files (x : External) (w : World) : (endLevel x w).files = w.files := by
  unfold endLevel
  split <;> rfl

theorem endLevel_names (x : External) (w : World) :
    Registry.names (endLevel x w).systems = Registry.names w.systems := by
  by_cases h : isAnyLevelOpen w.manager = true
  · rw [endLevel_open x w h]
    exact forSystems_names _ (endBody_name x) _
  · rw [endLevel_closed x w (by simpa using h)]

/-! ## Opening a preloaded level -/

/-- The entity loop: it creates one entity per file, in order, and touches neither the
manager nor the systems. -/
theorem createEntities_spec (files : List String) (w : World) :
    (files.foldl createEntityFromFile w).manager = w.manager
      ∧ (files.foldl createEntityFromFile w).systems = w.systems
      ∧ ∃ ec, (files.foldl createEntityFromFile w).calls = w.calls ++ ec
          ∧ createEntityCalls ec = files ∧ beginCalls ec = [] ∧ setConfigCalls ec = []
          ∧ endCalls ec = [] ∧ unloads ec = [] := by
  induction files generalizing w with
  | nil => exact ⟨rfl, rfl, [], by simp, rfl, rfl, rfl, rfl, rfl⟩
  | cons f rest ih =>
    obtain ⟨hm, hs, ec, hc, h1, h2, h3, h4, h5⟩ := ih (createEntityFromFile w f)
    simp only [List.foldl_cons]
    by_cases hd : f ∈ w.dirty
    · have hw : (createEntityFromFile w f).calls = w.calls ++ [.reload f, .createEntity f] := by
        simp [createEntityFromFile, hd, World.log, ResourceLoader.Reload, EntityFactory.createEntity]
      refine ⟨?_, ?_, [.reload f, .createEntity f] ++ ec, ?_, ?_, ?_, ?_, ?_, ?_⟩
      · rw [hm]; simp [createEntityFromFile, hd, World.log, ResourceLoader.Reload, EntityFactory.createEntity]
      · rw [hs]; simp [createEntityFromFile, hd, World.log, ResourceLoader.Reload, EntityFactory.createEntity]
      · rw [hc, hw]; simp
      · rw [createEntityCalls_append, h1]; rfl
      · rw [beginCalls_append, h2]; rfl
      · rw [setConfigCalls_append, h3]; rfl
      · rw [endCalls_append, h4]; rfl
      · rw [unloads_append, h5]; rfl
    · have hw : (createEntityFromFile w f).calls = w.calls ++ [.createEntity f] := by
        simp [createEntityFromFile, hd, World.log, ResourceLoader.Reload, EntityFactory.createEntity]
      refine ⟨?_, ?_, [.createEntity f] ++ ec, ?_, ?_, ?_, ?_, ?_, ?_⟩
      · rw [hm]; simp [createEntityFromFile, hd, World.log, ResourceLoader.Reload, EntityFactory.createEntity]
      · rw [hs]; simp [createEntityFromFile, hd, World.log, ResourceLoader.Reload, EntityFactory.createEntity]
      · rw [hc, hw]; simp
      · rw [createEntityCalls_append, h1]; rfl
      · rw [beginCalls_append, h2]; rfl
      · rw [setConfigCalls_append, h3]; rfl
      · rw [endCalls_append, h4]; rfl
      · rw [unloads_append, h5]; rfl

/-- The step `if (!OS::IsExists(path)) OS::CreateDirectoryName(path);`. -/
theorem ensureDirectory_spec (w : World) (path : String) :
    (if !OS.IsExists w path then OS.CreateDirectoryName w path else w).manager = w.manager
      ∧ (if !OS.IsExists w path then OS.CreateDirectoryName w path else w).systems = w.systems
      ∧ (if !OS.IsExists w path then OS.CreateDirectoryName w path else w).listing = w.listing
      ∧ ∃ dc, (if !OS.IsExists w path then OS.CreateDirectoryName w path else w).calls
            = w.calls ++ dc
          ∧ createEntityCalls dc = [] ∧ beginCalls dc = [] ∧ setConfigCalls dc = []
          ∧ endCalls dc = [] ∧ unloads dc = [] := by
  by_cases h : path ∈ w.paths
  · have e : (if !OS.IsExists w path then OS.CreateDirectoryName w path else w) = w := by
      simp [OS.IsExists, h]
    rw [e]
    exact ⟨rfl, rfl, rfl, [], by simp, rfl, rfl, rfl, rfl, rfl⟩
  · have e : (if !OS.IsExists w path then OS.CreateDirectoryName w path else w)
        = OS.CreateDirectoryName w path := by
      simp [OS.IsExists, h]
    rw [e]
    exact ⟨rfl, rfl, rfl, [.createDirectoryName path], rfl, rfl, rfl, rfl, rfl, rfl⟩

theorem setConfigCalls_configs (settings : JSON) (openInEditor : Bool)
    (names : List (Int × String)) :
    setConfigCalls (names.map (fun s => Call.systemSetConfig s.1 s.2 settings openInEditor))
      = names.map (fun s => (s.1, s.2, settings, openInEditor)) := by
  unfold setConfigCalls
  exact filterMap_map_some (fun s : Int × String => Call.systemSetConfig s.1 s.2 settings openInEditor)
    _ (fun s => (s.1, s.2, settings, openInEditor)) names (fun _ => rfl)

theorem beginCalls_configs (settings : JSON) (openInEditor : Bool)
    (names : List (Int × String)) :
    beginCalls (names.map (fun s => Call.systemSetConfig s.1 s.2 settings openInEditor)) = [] := by
  unfold beginCalls
  exact filterMap_map_none _ _ names (fun _ => rfl)

theorem endCalls_configs (settings : JSON) (openInEditor : Bool)
    (names : List (Int × String)) :
    endCalls (names.map (fun s => Call.systemSetConfig s.1 s.2 settings openInEditor)) = [] := by
  unfold endCalls
  exact filterMap_map_none _ _ names (fun _ => rfl)

theorem unloads_configs (settings : JSON) (openInEditor : Bool)
    (names : List (Int × String)) :
    unloads (names.map (fun s => Call.systemSetConfig s.1 s.2 settings openInEditor)) = [] := by
  unfold unloads
  exact filterMap_map_none _ _ names (fun _ => rfl)

theorem createEntityCalls_configs (settings : JSON) (openInEditor : Bool)
    (names : List (Int × String)) :
    createEntityCalls (names.map (fun s => Call.systemSetConfig s.1 s.2 settings openInEditor))
      = [] := by
  unfold createEntityCalls
  exact filterMap_map_none _ _ names (fun _ => rfl)

/-- Everything `openPreloadedLevel` does between the assignment of the descriptor and the
activation loop, as seen in the log. -/
theorem materialize_spec (x : External) (w : World) (levelPath : String) (openInEditor : Bool) :
    (materialize x w levelPath openInEditor).manager = w.manager
      ∧ Registry.names (materialize x w levelPath openInEditor).systems = Registry.names w.systems
      ∧ ∃ mc, (materialize x w levelPath openInEditor).calls = w.calls ++ mc
          ∧ unloads mc = [w.manager.m_ToUnload]
          ∧ endCalls mc = []
          ∧ beginCalls mc = []
          ∧ createEntityCalls mc = w.listing (levelPath ++ "/entities/")
          ∧ setConfigCalls mc = (Registry.names w.systems).map
              (fun s => (s.1, s.2, w.manager.m_CurrentLevel.m_LevelSettings, openInEditor))
          ∧ Call.setupLiveEntities ∈ mc := by
  obtain ⟨hm2, hs2, hl2, dc2, hc2, a2, b2, c2, d2, e2⟩ :=
    ensureDirectory_spec (w.log (.unload w.manager.m_ToUnload)) levelPath
  generalize hw2 : (if !OS.IsExists (w.log (.unload w.manager.m_ToUnload)) levelPath then
    OS.CreateDirectoryName (w.log (.unload w.manager.m_ToUnload)) levelPath
    else w.log (.unload w.manager.m_ToUnload)) = w2 at hm2 hs2 hl2 hc2
  obtain ⟨hm3, hs3, hl3, dc3, hc3, a3, b3, c3, d3, e3⟩ :=
    ensureDirectory_spec w2 (levelPath ++ "/entities/")
  generalize hw3 : (if !OS.IsExists w2 (levelPath ++ "/entities/") then
    OS.CreateDirectoryName w2 (levelPath ++ "/entities/") else w2) = w3 at hm3 hs3 hl3 hc3
  obtain ⟨hm4, hs4, ec, hc4, a4, b4, c4, d4, e4⟩ :=
    createEntities_spec (OS.GetFilesInDirectory w3 (levelPath ++ "/entities/")) w3
  generalize hw4 : (OS.GetFilesInDirectory w3 (levelPath ++ "/entities/")).foldl
    createEntityFromFile w3 = w4 at hm4 hs4 hc4
  have hmat : materialize x w levelPath openInEditor
      = ((w4.broadcast (setConfigBody x w4.manager.m_CurrentLevel.m_LevelSettings
          openInEditor)).log .setupLiveEntities).log (.print ("Loaded level: " ++ levelPath)) := by
    simp only [materialize, hw2, hw3, hw4]
  have hman : w4.manager = w.manager := by rw [hm4, hm3, hm2]; rfl
  have hsys : w4.systems = w.systems := by rw [hs4, hs3, hs2]; rfl
  have hlist : OS.GetFilesInDirectory w3 (levelPath ++ "/entities/")
      = w.listing (levelPath ++ "/entities/") := by
    simp only [OS.GetFilesInDirectory, hl3, hl2]; rfl
  have hcalls : w4.calls = w.calls ++ ([.unload w.manager.m_ToUnload] ++ dc2 ++ dc3 ++ ec) := by
    rw [hc4, hc3, hc2]; simp [World.log]
  rw [hmat]
  refine ⟨?_, ?_, [.unload w.manager.m_ToUnload] ++ dc2 ++ dc3 ++ ec
      ++ (Registry.names w.systems).map
          (fun s => Call.systemSetConfig s.1 s.2 w.manager.m_CurrentLevel.m_LevelSettings
            openInEditor)
      ++ [.setupLiveEntities, .print ("Loaded level: " ++ levelPath)], ?_, ?_, ?_, ?_, ?_, ?_, ?_⟩
  · simp [World.log, World.broadcast, hman]
  · simp only [World.log, World.broadcast]
    rw [forSystems_names _ (setConfigBody_name x _ _), hsys]
  · simp only [World.log, World.broadcast]
    rw [forSystems_calls_all _
      (fun o n => Call.systemSetConfig o n w4.manager.m_CurrentLevel.m_LevelSettings openInEditor)
      (fun _ _ => rfl), hcalls, hsys, hman]
    simp
  · simp only [unloads_append, e2, e3, e4, unloads_configs]
    rfl
  · simp only [endCalls_append, d2, d3, d4, endCalls_configs]
    rfl
  · simp only [beginCalls_append, b2, b3, b4, beginCalls_configs]
    rfl
  · simp only [createEntityCalls_append, a2, a3, a4, createEntityCalls_configs, hlist]
    simp [createEntityCalls]
  · simp only [setConfigCalls_append, c2, c3, c4, setConfigCalls_configs]
    simp [setConfigCalls]
  · simp

/-- The activation loop, as seen in the log. -/
theorem activate_spec (x : External) (w : World) :
    (activate x w).manager = w.manager
      ∧ (activate x w).calls = w.calls
          ++ (w.systems.flatten.filter (fun s => s.2.m_IsActive)).map
              (fun s => Call.systemBegin s.1 s.2.name) := by
  simp [activate, World.broadcast, forSystems_calls_begin]

theorem openPreloadedLevel_ok (x : External) (w : World) (levelPath : String) (openInEditor : Bool)
    (newLevel : LevelDescription) (h : LevelDescription.load x w levelPath = .ok newLevel) :
    openPreloadedLevel x w levelPath openInEditor =
      { result := .ok ()
        world := activate x
          (materialize x (setCurrentLevel (endLevel x w) newLevel) levelPath openInEditor) } := by
  have h1 : LevelDescription.load x (endLevel x w) levelPath = .ok newLevel := by
    rw [load_congr x w (endLevel x w) levelPath (endLevel_files x w)]; exact h
  simp [openPreloadedLevel, h1]

theorem openPreloadedLevel_error (x : External) (w : World) (levelPath : String)
    (openInEditor : Bool) (e : LevelError)
    (h : LevelDescription.load x w levelPath = .error e) :
    openPreloadedLevel x w levelPath openInEditor = { result := .error e, world := endLevel x w } := by
  have h1 : LevelDescription.load x (endLevel x w) levelPath = .error e := by
    rw [load_congr x w (endLevel x w) levelPath (endLevel_files x w)]; exact h
  simp [openPreloadedLevel, h1]

/-- What `endLevel` adds to the log. -/
theorem endLevel_calls (x : External) (w : World) :
    ∃ ends, (endLevel x w).calls = w.calls ++ ends
      ∧ endCalls ends = (if isAnyLevelOpen w.manager then Registry.names w.systems else [])
      ∧ beginCalls ends = [] ∧ setConfigCalls ends = [] ∧ createEntityCalls ends = []
      ∧ unloads ends = [] := by
  by_cases h : isAnyLevelOpen w.manager = true
  · refine ⟨(Registry.names w.systems).map (fun s => Call.systemEnd s.1 s.2)
      ++ [.destroyEntities, .rootHierarchyClear,
          .print ("Ended level: " ++ w.manager.m_CurrentLevel.m_LevelSettingsFile.getD "")],
      ?_, ?_, ?_, ?_, ?_, ?_⟩
    · rw [endLevel_open x w h]; simp
    · rw [endCalls_append, endCalls_ends, if_pos h]; simp [endCalls]
    · rw [beginCalls_append]
      unfold beginCalls
      rw [filterMap_map_none _ _ _ (fun _ => rfl)]; rfl
    · rw [setConfigCalls_append]
      unfold setConfigCalls
      rw [filterMap_map_none _ _ _ (fun _ => rfl)]; rfl
    · rw [createEntityCalls_append]
      unfold createEntityCalls
      rw [filterMap_map_none _ _ _ (fun _ => rfl)]; rfl
    · rw [unloads_append]
      unfold unloads
      rw [filterMap_map_none _ _ _ (fun _ => rfl)]; rfl
  · have hc : isAnyLevelOpen w.manager = false := by simpa using h
    refine ⟨[], ?_, ?_, rfl, rfl, rfl, rfl⟩
    · rw [endLevel_closed x w hc]; simp
    · simp [hc, endCalls]

theorem endLevel_listing (x : External) (w : World) : (endLevel x w).listing = w.listing := by
  unfold endLevel
  split <;> rfl

/-- The log of a successful `openPreloadedLevel`, in four parts: what was there, what
`endLevel` adds, what the statements up to the activation loop add, and the `begin()` calls. -/
theorem openPreloadedLevel_trace (x : External) (w : World) (levelPath : String)
    (openInEditor : Bool) (newLevel : LevelDescription)
    (h : LevelDescription.load x w levelPath = .ok newLevel) :
    (openPreloadedLevel x w levelPath openInEditor).world.manager
        = { m_CurrentLevel := newLevel, m_ToUnload := w.manager.m_ToUnload }
      ∧ ∃ ends mc begins, (openPreloadedLevel x w levelPath openInEditor).world.calls
            = w.calls ++ ends ++ mc ++ begins
          ∧ begins = ((materialize x (setCurrentLevel (endLevel x w) newLevel) levelPath
                    openInEditor).systems.flatten.filter (fun s => s.2.m_IsActive)).map
                  (fun s => Call.systemBegin s.1 s.2.name)
          ∧ endCalls ends = (if isAnyLevelOpen w.manager then Registry.names w.systems else [])
          ∧ beginCalls ends = [] ∧ setConfigCalls ends = [] ∧ createEntityCalls ends = []
          ∧ unloads ends = []
          ∧ unloads mc = [w.manager.m_ToUnload]
          ∧ endCalls mc = []
          ∧ beginCalls mc = []
          ∧ createEntityCalls mc = w.listing (levelPath ++ "/entities/")
          ∧ setConfigCalls mc = (Registry.names w.systems).map
              (fun s => (s.1, s.2, newLevel.m_LevelSettings, openInEditor))
          ∧ Call.setupLiveEntities ∈ mc := by
  rw [openPreloadedLevel_ok x w levelPath openInEditor newLevel h]
  obtain ⟨ends, hends, e1, e2, e3, e4, e5⟩ := endLevel_calls x w
  obtain ⟨hm, _, mc, hmc, m1, m2, m3, m4, m5, m6⟩ :=
    materialize_spec x (setCurrentLevel (endLevel x w) newLevel) levelPath openInEditor
  obtain ⟨am, ac⟩ := activate_spec x
    (materialize x (setCurrentLevel (endLevel x w) newLevel) levelPath openInEditor)
  have hw : (setCurrentLevel (endLevel x w) newLevel).manager
      = { m_CurrentLevel := newLevel, m_ToUnload := w.manager.m_ToUnload } := by
    simp [setCurrentLevel, endLevel_manager]
  have hc : (setCurrentLevel (endLevel x w) newLevel).calls = w.calls ++ ends := hends
  have hl : (setCurrentLevel (endLevel x w) newLevel).listing = w.listing := endLevel_listing x w
  have hn : Registry.names (setCurrentLevel (endLevel x w) newLevel).systems
      = Registry.names w.systems := endLevel_names x w
  refine ⟨?_, ends, mc, _, ?_, rfl, e1, e2, e3, e4, e5, ?_, m2, m3, ?_, ?_, m6⟩
  · simp only [am, hm, hw]
  · simp only [ac, hmc, hc]
  · rw [m1, hw]
  · rw [m4, hl]
  · rw [m5, hn, hw]

theorem openLevel_start (x : External) (w : World) :
    (if isAnyLevelOpen w.manager then endLevel x w else w) = endLevel x w := by
  by_cases h : isAnyLevelOpen w.manager = true
  · simp [h]
  · have hc : isAnyLevelOpen w.manager = false := by simpa using h
    simp [hc, endLevel_closed x w hc]

theorem load_endLevel (x : External) (w : World) (levelPath : String) :
    LevelDescription.load x (endLevel x w) levelPath = LevelDescription.load x w levelPath :=
  load_congr x w (endLevel x w) levelPath (endLevel_files x w)

theorem openLevel_error (x : External) (w : World) (levelPath : String) (openInEditor : Bool)
    (e : LevelError) (h : LevelDescription.load x w levelPath = .error e) :
    openLevel x w levelPath openInEditor = { result := .error e, world := endLevel x w } := by
  have h1 : LevelDescription.load x (endLevel x w) levelPath = .error e := by
    rw [load_endLevel]; exact h
  simp only [openLevel, openLevel_start, preloadLevel_error x (endLevel x w) levelPath e h1]

theorem openLevel_ok (x : External) (w : World) (levelPath : String) (openInEditor : Bool)
    (newLevel : LevelDescription) (h : LevelDescription.load x w levelPath = .ok newLevel) :
    openLevel x w levelPath openInEditor
      = openPreloadedLevel x
          ((preloadLevel x (endLevel x w) levelPath).world.log
            (.print ("Preloaded " ++ toString (x.Preload newLevel.m_Preloads) ++ " new resources")))
          levelPath openInEditor := by
  have h1 : LevelDescription.load x (endLevel x w) levelPath = .ok newLevel := by
    rw [load_endLevel]; exact h
  simp only [openLevel, openLevel_start, preloadLevel_ok x (endLevel x w) levelPath newLevel h1]

/-- The world `openLevel` hands to `openPreloadedLevel`. -/
theorem openLevel_handover (x : External) (w : World) (levelPath : String)
    (newLevel : LevelDescription) (msg : String)
    (h : LevelDescription.load x w levelPath = .ok newLevel) :
    ((preloadLevel x (endLevel x w) levelPath).world.log (.print msg)).manager
        = { m_CurrentLevel := w.manager.m_CurrentLevel
            m_ToUnload := computeToUnload w.manager.m_CurrentLevel.m_Preloads newLevel.m_Preloads }
      ∧ ((preloadLevel x (endLevel x w) levelPath).world.log (.print msg)).systems
        = (endLevel x w).systems
      ∧ ((preloadLevel x (endLevel x w) levelPath).world.log (.print msg)).files = w.files
      ∧ ((preloadLevel x (endLevel x w) levelPath).world.log (.print msg)).listing = w.listing
      ∧ ((preloadLevel x (endLevel x w) levelPath).world.log (.print msg)).calls
        = (endLevel x w).calls ++ [.preload newLevel.m_Preloads, .print msg] := by
  have h1 : LevelDescription.load x (endLevel x w) levelPath = .ok newLevel := by
    rw [load_endLevel]; exact h
  rw [preloadLevel_ok x (endLevel x w) levelPath newLevel h1]
  refine ⟨?_, rfl, ?_, ?_, ?_⟩
  · simp [World.log, endLevel_manager]
  · simp [World.log, endLevel_files]
  · simp [World.log, endLevel_listing]
  · simp [World.log]

/-! ## The claims about the level manager -/

/-- C1: when the descriptor at the path loads, the pending to-unload list after
`preloadLevel` is the current level's preload list with the entries found in the new level's
preload list removed, order kept: it is a sublist of the current list, each of its elements
is in the current list and not in the new one, and every element of the current list that is
not in the new one is in it. -/
theorem preloadLevel_toUnload (x : External) (w : World) (levelPath : String)
    (newLevel : LevelDescription) (h : LevelDescription.load x w levelPath = .ok newLevel) :
    (preloadLevel x w levelPath).world.manager.m_ToUnload
        = w.manager.m_CurrentLevel.m_Preloads.filter (fun r => decide (r ∉ newLevel.m_Preloads))
      ∧ ((preloadLevel x w levelPath).world.manager.m_ToUnload).Sublist
          w.manager.m_CurrentLevel.m_Preloads
      ∧ ∀ r, r ∈ (preloadLevel x w levelPath).world.manager.m_ToUnload
          ↔ (r ∈ w.manager.m_CurrentLevel.m_Preloads ∧ r ∉ newLevel.m_Preloads) := by
  have hU : (preloadLevel x w levelPath).world.manager.m_ToUnload
      = w.manager.m_CurrentLevel.m_Preloads.filter (fun r => decide (r ∉ newLevel.m_Preloads)) := by
    rw [preloadLevel_ok x w levelPath newLevel h]
    simp only [World.log]
    rw [computeToUnload_eq_filter]
    apply List.filter_congr
    intro r _
    simp [notFound]
  refine ⟨hU, ?_, ?_⟩
  · rw [hU]
    exact List.filter_sublist _
  · intro r
    rw [hU]
    simp [List.mem_filter]

/-- C1, the scenario of the spec: with level A current and level B preloaded, only
`mesh1` is pending for unload. -/
theorem preloadLevel_toUnload_witness :
    LevelDescription.load demoExternal demoOpenA "levels/B" = .ok levelB
      ∧ demoOpenA.manager.m_CurrentLevel.m_Preloads = ["mesh1", "tex1"]
      ∧ levelB.m_Preloads = ["tex1", "tex2"]
      ∧ (preloadLevel demoExternal demoOpenA "levels/B").world.manager.m_ToUnload = ["mesh1"] :=
  ⟨rfl, rfl, rfl,
    ((preloadLevel_toUnload demoExternal demoOpenA "levels/B" levelB rfl).1).trans (by decide)⟩

/-- C2 fails as stated: after `openLevel` of A and `preloadLevel` of B, the call
`openPreloadedLevel` of A passes `mesh1` to `ResourceLoader::Unload` although `mesh1` is in
the preload list of A, the level being opened. -/
theorem unload_hits_opened_level :
    (serveAll demoExternal demoStart
        [.openLevel "levels/A" false, .preloadLevel "levels/B"]).manager.m_ToUnload = ["mesh1"]
      ∧ unloads (serveAll demoExternal demoStart
          [.openLevel "levels/A" false, .preloadLevel "levels/B"]).calls = [[]]
      ∧ unloads (serveAll demoExternal demoStart
          [.openLevel "levels/A" false, .preloadLevel "levels/B",
           .openPreloadedLevel "levels/A" false]).calls = [[], ["mesh1"]]
      ∧ (serveAll demoExternal demoStart
          [.openLevel "levels/A" false, .preloadLevel "levels/B",
           .openPreloadedLevel "levels/A" false]).manager.m_CurrentLevel.m_Preloads
          = ["mesh1", "tex1"]
      ∧ "mesh1" ∈ ["mesh1", "tex1"] := by
  refine ⟨by decide, by decide, by decide, by decide, by decide⟩

/-- C3 fails as stated: level A is open, the settings of level C do not parse and level D
has no settings file; both `openPreloadedLevel` and `openLevel` abort, the descriptor of A
stays current, but every system has received `end()`, the live entity is gone and the
children of the hierarchy root are cleared. -/
theorem open_abort_tears_down :
    isAnyLevelOpen demoOpenA.manager = true
      ∧ demoOpenA.liveEntities = ["levels/A/entities/player.entity.json"]
      ∧ demoOpenA.rootChildren = ["player"]
      ∧ endCalls demoOpenA.calls = []
      ∧ (openPreloadedLevel demoExternal demoOpenA "levels/C" false).result
          = .error (.parseError "levels/C/C.level.json")
      ∧ endCalls (openPreloadedLevel demoExternal demoOpenA "levels/C" false).world.calls
          = [(1, "PhysicsSystem"), (1, "EditorSystem"), (3, "RenderSystem")]
      ∧ (openPreloadedLevel demoExternal demoOpenA "levels/C" false).world.liveEntities = []
      ∧ (openPreloadedLevel demoExternal demoOpenA "levels/C" false).world.rootChildren = []
      ∧ (openPreloadedLevel demoExternal demoOpenA "levels/C" false).world.manager.m_CurrentLevel.m_LevelName
          = "A"
      ∧ (openLevel demoExternal demoOpenA "levels/D" false).result
          = .error (.missingFile "levels/D/D.level.json")
      ∧ endCalls (openLevel demoExternal demoOpenA "levels/D" false).world.calls
          = [(1, "PhysicsSystem"), (1, "EditorSystem"), (3, "RenderSystem")]
      ∧ (openLevel demoExternal demoOpenA "levels/D" false).world.liveEntities = []
      ∧ (openLevel demoExternal demoOpenA "levels/D" false).world.rootChildren = [] := by
  refine ⟨by decide, by decide, by decide, by decide, rfl, by decide, by decide, by decide,
    by decide, rfl, by decide, by decide, by decide⟩

/-- C3, as the code has it: when a level is open and the descriptor at the path does not
load, `openPreloadedLevel` and `openLevel` abort with that error after the end-level
sequence and nothing else has run. The manager's data (current descriptor, pending
to-unload list) are unchanged, but every registered system has received `end()`, the
live entities are destroyed and the children of the hierarchy root are cleared. -/
theorem open_abort_after_endLevel (x : External) (w : World) (levelPath : String)
    (openInEditor : Bool) (e : LevelError)
    (hOpen : isAnyLevelOpen w.manager = true)
    (h : LevelDescription.load x w levelPath = .error e) :
    (openPreloadedLevel x w levelPath openInEditor).result = .error e
      ∧ (openPreloadedLevel x w levelPath openInEditor).world = endLevel x w
      ∧ (openLevel x w levelPath openInEditor).result = .error e
      ∧ (openLevel x w levelPath openInEditor).world = endLevel x w
      ∧ (endLevel x w).manager = w.manager
      ∧ (endLevel x w).calls
          = w.calls ++ (Registry.names w.systems).map (fun s => Call.systemEnd s.1 s.2)
            ++ [.destroyEntities, .rootHierarchyClear,
                .print ("Ended level: " ++ w.manager.m_CurrentLevel.m_LevelSettingsFile.getD "")]
      ∧ (endLevel x w).liveEntities = []
      ∧ (endLevel x w).rootChildren = [] := by
  refine ⟨?_, ?_, ?_, ?_, endLevel_manager x w, ?_, ?_, ?_⟩
  · rw [openPreloadedLevel_error x w levelPath openInEditor e h]
  · rw [openPreloadedLevel_error x w levelPath openInEditor e h]
  · rw [openLevel_error x w levelPath openInEditor e h]
  · rw [openLevel_error x w levelPath openInEditor e h]
  · rw [endLevel_open x w hOpen]
  · rw [endLevel_open x w hOpen]
  · rw [endLevel_open x w hOpen]

/-- C3, at a concrete input: level A is open and the settings of level C do not parse. -/
theorem open_abort_after_endLevel_witness :
    isAnyLevelOpen demoOpenA.manager = true
      ∧ LevelDescription.load demoExternal demoOpenA "levels/C"
          = .error (.parseError "levels/C/C.level.json")
      ∧ (openPreloadedLevel demoExternal demoOpenA "levels/C" true).world
          = endLevel demoExternal demoOpenA
      ∧ (openLevel demoExternal demoOpenA "levels/C" true).world
          = endLevel demoExternal demoOpenA :=
  ⟨rfl, rfl,
    (open_abort_after_endLevel demoExternal demoOpenA "levels/C" true
      (.parseError "levels/C/C.level.json") rfl rfl).2.1,
    (open_abort_after_endLevel demoExternal demoOpenA "levels/C" true
      (.parseError "levels/C/C.level.json") rfl rfl).2.2.2.1⟩

theorem endCalls_begins (l : List (Int × System)) :
    endCalls (l.map (fun s => Call.systemBegin s.1 s.2.name)) = [] := by
  unfold endCalls
  exact filterMap_map_none _ _ l (fun _ => rfl)

theorem setConfigCalls_begins (l : List (Int × System)) :
    setConfigCalls (l.map (fun s => Call.systemBegin s.1 s.2.name)) = [] := by
  unfold setConfigCalls
  exact filterMap_map_none _ _ l (fun _ => rfl)

theorem beginCalls_begins (l : List (Int × System)) :
    beginCalls (l.map (fun s => Call.systemBegin s.1 s.2.name))
      = l.map (fun s => (s.1, s.2.name)) := by
  unfold beginCalls
  exact filterMap_map_some (fun s : Int × System => Call.systemBegin s.1 s.2.name) _
    (fun s => (s.1, s.2.name)) l (fun _ => rfl)

/-- C4 fails as stated: with level A open, `isAnyLevelOpen()` is still true after
`endLevel()`, a second `endLevel()` calls `end()` on all three systems again, and `openLevel`
of level B gives every system two `end()` calls. -/
theorem endLevel_leaves_level_open :
    isAnyLevelOpen demoOpenA.manager = true
      ∧ isAnyLevelOpen (endLevel demoExternal demoOpenA).manager = true
      ∧ endCalls (endLevel demoExternal demoOpenA).calls
          = [(1, "PhysicsSystem"), (1, "EditorSystem"), (3, "RenderSystem")]
      ∧ endCalls (endLevel demoExternal (endLevel demoExternal demoOpenA)).calls
          = [(1, "PhysicsSystem"), (1, "EditorSystem"), (3, "RenderSystem"),
             (1, "PhysicsSystem"), (1, "EditorSystem"), (3, "RenderSystem")]
      ∧ endCalls (openLevel demoExternal demoOpenA "levels/B" false).world.calls
          = [(1, "PhysicsSystem"), (1, "EditorSystem"), (3, "RenderSystem"),
             (1, "PhysicsSystem"), (1, "EditorSystem"), (3, "RenderSystem")] := by
  refine ⟨by decide, by decide, by decide, by decide, by decide⟩

/-- C4, as the code has it: `endLevel` does not change the manager's data, so for every
state in which a level is open `isAnyLevelOpen()` is still true after `endLevel()` returns; a
second `endLevel()` issued immediately afterwards calls `end()` on every registered system
again, and an `openLevel` that succeeds on an open level gives every system `end()` twice,
once from its own `endLevel()` and once from the one in `openPreloadedLevel`. -/
theorem endLevel_keeps_level_open (x : External) (w : World)
    (hOpen : isAnyLevelOpen w.manager = true) :
    (endLevel x w).manager = w.manager
      ∧ isAnyLevelOpen (endLevel x w).manager = true
      ∧ (∃ again, (endLevel x (endLevel x w)).calls = (endLevel x w).calls ++ again
          ∧ endCalls again = Registry.names w.systems)
      ∧ ∀ levelPath openInEditor newLevel,
          LevelDescription.load x w levelPath = .ok newLevel →
          ∃ added, (openLevel x w levelPath openInEditor).world.calls = w.calls ++ added
            ∧ endCalls added = Registry.names w.systems ++ Registry.names w.systems := by
  have hOpen1 : isAnyLevelOpen (endLevel x w).manager = true := by
    rw [endLevel_manager]; exact hOpen
  refine ⟨endLevel_manager x w, hOpen1, ?_, ?_⟩
  · obtain ⟨again, hc, he, _⟩ := endLevel_calls x (endLevel x w)
    refine ⟨again, hc, ?_⟩
    rw [he, if_pos hOpen1, endLevel_names]
  · intro levelPath openInEditor newLevel h
    obtain ⟨ho1, ho2, ho3, _, ho5⟩ := openLevel_handover x w levelPath newLevel
      ("Preloaded " ++ toString (x.Preload newLevel.m_Preloads) ++ " new resources") h
    have hload2 : LevelDescription.load x
        ((preloadLevel x (endLevel x w) levelPath).world.log
          (.print ("Preloaded " ++ toString (x.Preload newLevel.m_Preloads) ++ " new resources")))
        levelPath = .ok newLevel := by
      rw [load_congr x w _ levelPath ho3]; exact h
    obtain ⟨_, ends2, mc2, begins2, hc2, hb2, f1, _, _, _, _, _, n2, _⟩ :=
      openPreloadedLevel_trace x _ levelPath openInEditor newLevel hload2
    obtain ⟨ends0, hends0, g1, _⟩ := endLevel_calls x w
    have hOpen2 : isAnyLevelOpen ((preloadLevel x (endLevel x w) levelPath).world.log
        (.print ("Preloaded " ++ toString (x.Preload newLevel.m_Preloads)
          ++ " new resources"))).manager = true := by
      rw [ho1]; exact hOpen
    refine ⟨ends0 ++ [.preload newLevel.m_Preloads, .print
      ("Preloaded " ++ toString (x.Preload newLevel.m_Preloads) ++ " new resources")]
      ++ ends2 ++ mc2 ++ begins2, ?_, ?_⟩
    · rw [openLevel_ok x w levelPath openInEditor newLevel h, hc2, ho5, hends0]
      simp only [List.append_assoc]
    · simp only [endCalls_append, g1, f1, n2, hb2, endCalls_begins, if_pos hOpen, if_pos hOpen2,
        ho2, endLevel_names]
      simp [endCalls]

/-- C4, at a concrete input: level A is open and level B loads; after `endLevel` a level
still counts as open, and `openLevel` of B logs the three `end()` calls twice. -/
theorem endLevel_keeps_level_open_witness :
    isAnyLevelOpen demoOpenA.manager = true
      ∧ LevelDescription.load demoExternal demoOpenA "levels/B" = .ok levelB
      ∧ isAnyLevelOpen (endLevel demoExternal demoOpenA).manager = true
      ∧ ∃ added, (openLevel demoExternal demoOpenA "levels/B" false).world.calls
            = demoOpenA.calls ++ added
          ∧ endCalls added
            = [(1, "PhysicsSystem"), (1, "EditorSystem"), (3, "RenderSystem"),
               (1, "PhysicsSystem"), (1, "EditorSystem"), (3, "RenderSystem")] := by
  obtain ⟨_, hOpen, _, hTwice⟩ := endLevel_keeps_level_open demoExternal demoOpenA rfl
  obtain ⟨added, hc, he⟩ := hTwice "levels/B" false levelB rfl
  exact ⟨rfl, rfl, hOpen, added, hc, he.trans (by decide)⟩

/-- C5: when the current descriptor is the default-constructed one, no level counts as open
and `endLevel` returns the world as it found it: no call is made on any collaborator, the
live entities and the children of the hierarchy root stay, and the manager's data are
unchanged. -/
theorem endLevel_noop_without_level (x : External) (w : World)
    (h : w.manager.m_CurrentLevel = LevelDescription.new) :
    isAnyLevelOpen w.manager = false ∧ endLevel x w = w := by
  have hc : isAnyLevelOpen w.manager = false := by
    simp [isAnyLevelOpen, h, LevelDescription.new]
  exact ⟨hc, endLevel_closed x w hc⟩

/-- C5, at a concrete input: the scenario's start has the default-constructed descriptor. -/
theorem endLevel_noop_without_level_witness :
    demoStart.manager.m_CurrentLevel = LevelDescription.new
      ∧ endLevel demoExternal demoStart = demoStart :=
  ⟨rfl, (endLevel_noop_without_level demoExternal demoStart rfl).2⟩

/-- C6: when a level is open, `endLevel` adds to the log one `end()` call per registered
system, whatever its active flag, bucket after bucket in the order of the registry and in
registration order inside a bucket, then the destruction of the entities, then the clearing
of the hierarchy root, then a print; the bucket keys of the `end()` calls ascend, and
afterwards there are no live entities and the root has no children. -/
theorem endLevel_ends_every_system (x : External) (w : World)
    (hOpen : isAnyLevelOpen w.manager = true) (hOrd : w.systems.Ordered) :
    (endLevel x w).calls
        = w.calls ++ (Registry.names w.systems).map (fun s => Call.systemEnd s.1 s.2)
          ++ [.destroyEntities, .rootHierarchyClear,
              .print ("Ended level: " ++ w.manager.m_CurrentLevel.m_LevelSettingsFile.getD "")]
      ∧ endCalls ((Registry.names w.systems).map (fun s => Call.systemEnd s.1 s.2)
          ++ [.destroyEntities, .rootHierarchyClear,
              .print ("Ended level: " ++ w.manager.m_CurrentLevel.m_LevelSettingsFile.getD "")])
        = w.systems.flatMap (fun b => b.2.map (fun s => (b.1, s.name)))
      ∧ ((Registry.names w.systems).map (fun s => s.1)).Pairwise (fun a b => a ≤ b)
      ∧ (endLevel x w).liveEntities = []
      ∧ (endLevel x w).rootChildren = [] := by
  refine ⟨?_, ?_, ordered_names w.systems hOrd, ?_, ?_⟩
  · rw [endLevel_open x w hOpen]
  · rw [endCalls_append, endCalls_ends]
    simp [endCalls, Registry.names, Registry.flatten, List.map_flatMap, List.map_map,
      Function.comp_def]
  · rw [endLevel_open x w hOpen]
  · rw [endLevel_open x w hOpen]

/-- C6, at a concrete input: level A is open; the inactive `RenderSystem` is ended too. -/
theorem endLevel_ends_every_system_witness :
    isAnyLevelOpen demoOpenA.manager = true
      ∧ demoOpenA.systems.Ordered
      ∧ endCalls (endLevel demoExternal demoOpenA).calls
          = [(1, "PhysicsSystem"), (1, "EditorSystem"), (3, "RenderSystem")] := by
  have hOrd : demoOpenA.systems.Ordered := by
    unfold Registry.Ordered
    decide
  refine ⟨rfl, hOrd, ?_⟩
  rw [(endLevel_ends_every_system demoExternal demoOpenA rfl hOrd).1]
  decide

/-- C7: in a successful `openPreloadedLevel` the registry when the activation loop starts
holds the systems registered at the call, in the same buckets and order, and the `begin()`
calls added to the log are, entry for entry, the systems of that registry whose active flag
is set at that point, in visiting order; a system whose flag is clear gets no `begin()`, and
the bucket keys of the calls ascend. -/
theorem openPreloadedLevel_begins_active (x : External) (w : World) (levelPath : String)
    (openInEditor : Bool) (newLevel : LevelDescription)
    (h : LevelDescription.load x w levelPath = .ok newLevel) (hOrd : w.systems.Ordered) :
    Registry.names
        (materialize x (setCurrentLevel (endLevel x w) newLevel) levelPath openInEditor).systems
        = Registry.names w.systems
      ∧ ∃ added, (openPreloadedLevel x w levelPath openInEditor).world.calls = w.calls ++ added
          ∧ beginCalls added
            = ((materialize x (setCurrentLevel (endLevel x w) newLevel) levelPath
                  openInEditor).systems.flatten.filter (fun s => s.2.m_IsActive)).map
                (fun s => (s.1, s.2.name))
          ∧ ((beginCalls added).map (fun s => s.1)).Pairwise (fun a b => a ≤ b) := by
  obtain ⟨_, ends, mc, begins, hc, hb, _, e2, _, _, _, _, _, m3, _⟩ :=
    openPreloadedLevel_trace x w levelPath openInEditor newLevel h
  have hn : Registry.names
      (materialize x (setCurrentLevel (endLevel x w) newLevel) levelPath openInEditor).systems
      = Registry.names w.systems := by
    rw [(materialize_spec x (setCurrentLevel (endLevel x w) newLevel) levelPath
      openInEditor).2.1]
    exact endLevel_names x w
  have hbc : beginCalls (ends ++ mc ++ begins)
      = ((materialize x (setCurrentLevel (endLevel x w) newLevel) levelPath
            openInEditor).systems.flatten.filter (fun s => s.2.m_IsActive)).map
          (fun s => (s.1, s.2.name)) := by
    rw [beginCalls_append, beginCalls_append, e2, m3, hb, beginCalls_begins]
    rfl
  refine ⟨hn, ends ++ mc ++ begins, ?_, hbc, ?_⟩
  · rw [hc]; simp only [List.append_assoc]
  · rw [hbc, List.map_map]
    have hsub : (((materialize x (setCurrentLevel (endLevel x w) newLevel) levelPath
        openInEditor).systems.flatten.filter (fun s => s.2.m_IsActive)).map
          ((fun s : Int × String => s.1) ∘ (fun s : Int × System => (s.1, s.2.name)))).Sublist
        ((Registry.names w.systems).map (fun s => s.1)) := by
      rw [← hn]
      unfold Registry.names
      rw [List.map_map]
      exact (List.filter_sublist _).map _
    exact (ordered_names w.systems hOrd).sublist hsub

/-- C7, at a concrete input: level B is opened in editor mode from the scenario's start;
`EditorSystem` is active by then and begins, `RenderSystem` is not and does not. -/
theorem openPreloadedLevel_begins_active_witness :
    LevelDescription.load demoExternal demoStart "levels/B" = .ok levelB
      ∧ demoStart.systems.Ordered
      ∧ ∃ added, (openPreloadedLevel demoExternal demoStart "levels/B" true).world.calls
            = demoStart.calls ++ added
          ∧ beginCalls added = [(1, "PhysicsSystem"), (1, "EditorSystem")] := by
  have hOrd : demoStart.systems.Ordered := by
    unfold Registry.Ordered
    decide
  obtain ⟨_, added, hc, hb, _⟩ :=
    openPreloadedLevel_begins_active demoExternal demoStart "levels/B" true levelB rfl hOrd
  refine ⟨rfl, hOrd, added, hc, ?_⟩
  rw [hb]
  decide

/-- C8: a successful `openPreloadedLevel` adds to the log a first part without any `begin()`
call, followed by a part made of `begin()` calls only. The first part holds one `setConfig`
per registered system, in visiting order, each with the settings of the descriptor parsed
for the path and the editor-mode flag of the call; it holds one `createEntity` per file of
the level's entities directory, in listing order; and it holds `setupLiveEntities`. -/
theorem openPreloadedLevel_configures_before_begin (x : External) (w : World)
    (levelPath : String) (openInEditor : Bool) (newLevel : LevelDescription)
    (h : LevelDescription.load x w levelPath = .ok newLevel) :
    ∃ before begins,
      (openPreloadedLevel x w levelPath openInEditor).world.calls = w.calls ++ before ++ begins
        ∧ setConfigCalls before = (Registry.names w.systems).map
            (fun s => (s.1, s.2, newLevel.m_LevelSettings, openInEditor))
        ∧ setConfigCalls begins = []
        ∧ createEntityCalls before = OS.GetFilesInDirectory w (levelPath ++ "/entities/")
        ∧ Call.setupLiveEntities ∈ before
        ∧ beginCalls before = []
        ∧ ∀ c, c ∈ begins → ∃ order system, c = Call.systemBegin order system := by
  obtain ⟨_, ends, mc, begins, hc, hb, _, e2, e3, e4, _, _, _, m3, m4, m5, m6⟩ :=
    openPreloadedLevel_trace x w levelPath openInEditor newLevel h
  refine ⟨ends ++ mc, begins, ?_, ?_, ?_, ?_, ?_, ?_, ?_⟩
  · rw [hc]; simp only [List.append_assoc]
  · rw [setConfigCalls_append, e3, m5]; rfl
  · rw [hb, setConfigCalls_begins]
  · rw [createEntityCalls_append, e4, m4]; rfl
  · exact List.mem_append_right _ m6
  · rw [beginCalls_append, e2, m3]; rfl
  · intro c hcm
    rw [hb] at hcm
    obtain ⟨s, _, rfl⟩ := List.mem_map.mp hcm
    exact ⟨s.1, s.2.name, rfl⟩

/-- C8, at a concrete input: level B is opened in editor mode while level A is open. -/
theorem openPreloadedLevel_configures_before_begin_witness :
    LevelDescription.load demoExternal demoOpenA "levels/B" = .ok levelB
      ∧ ∃ before begins,
          (openPreloadedLevel demoExternal demoOpenA "levels/B" true).world.calls
            = demoOpenA.calls ++ before ++ begins
          ∧ setConfigCalls before
            = [(1, "PhysicsSystem", docB, true), (1, "EditorSystem", docB, true),
               (3, "RenderSystem", docB, true)]
          ∧ createEntityCalls before
            = ["levels/B/entities/door.entity.json", "levels/B/entities/key.entity.json"]
          ∧ beginCalls before = [] := by
  obtain ⟨before, begins, hc, hs, _, he, _, hb, _⟩ :=
    openPreloadedLevel_configures_before_begin demoExternal demoOpenA "levels/B" true levelB rfl
  exact ⟨rfl, before, begins, hc, hs.trans rfl, he.trans rfl, hb⟩

/-- C9: when the descriptor at the path loads, `preloadLevel` passes the new level's whole
preload list to `ResourceLoader::Preload`, whatever the current level preloads, makes no
other call, and returns what `Preload` returns; when `Preload` returns the length of the list
it is given, that is the number of identifiers in the new level's preload list. -/
theorem preloadLevel_requests_full_list (x : External) (w : World) (levelPath : String)
    (newLevel : LevelDescription)
    (h : LevelDescription.load x w levelPath = .ok newLevel)
    (hPreload : ∀ paths, x.Preload paths = paths.length) :
    (preloadLevel x w levelPath).world.calls = w.calls ++ [.preload newLevel.m_Preloads]
      ∧ (preloadLevel x w levelPath).result = .ok (newLevel.m_Preloads.length : Int) := by
  rw [preloadLevel_ok x w levelPath newLevel h, hPreload]
  exact ⟨rfl, rfl⟩

/-- C9, at the scenario of the spec: level B is preloaded while level A is open; `tex1`,
which level A already holds, is requested again and the count is 2. -/
theorem preloadLevel_requests_full_list_witness :
    LevelDescription.load demoExternal demoOpenA "levels/B" = .ok levelB
      ∧ (∀ paths, demoExternal.Preload paths = paths.length)
      ∧ preloads (preloadLevel demoExternal demoOpenA "levels/B").world.calls = [["tex1", "tex2"]]
      ∧ (preloadLevel demoExternal demoOpenA "levels/B").result = .ok 2 := by
  obtain ⟨hc, hr⟩ := preloadLevel_requests_full_list demoExternal demoOpenA "levels/B" levelB rfl
    (fun _ => rfl)
  refine ⟨rfl, fun _ => rfl, ?_, hr⟩
  rw [hc]
  decide

/-! ## The traversal -/

section TraversalProofs

variable {M : Type}

theorem pushCount_append (a b : List (RenderCall M)) :
    pushCount (a ++ b) = pushCount a + pushCount b := by
  simp [pushCount]

theorem popCount_append (a b : List (RenderCall M)) :
    popCount (a ++ b) = popCount a + popCount b := by
  simp [popCount]

theorem render_spec (entity : String) (g : VisualComponentGraph M) :
    (render entity g).m_TransformationStack = g.m_TransformationStack
      ∧ pushCount (render entity g).calls = pushCount g.calls
      ∧ popCount (render entity g).calls = popCount g.calls := by
  simp [render, pushCount_append, popCount_append, pushCount, popCount]

theorem postRender_spec (g : VisualComponentGraph M) :
    (postRender g).m_TransformationStack = g.m_TransformationStack.dropLast
      ∧ pushCount (postRender g).calls = pushCount g.calls
      ∧ popCount (postRender g).calls = popCount g.calls + 1 := by
  simp [postRender, VisualComponentGraph.popMatrix, pushCount_append, popCount_append, pushCount,
    popCount]

theorem cameraBuffers_spec (this : VisualComponent M) (name : String)
    (g : VisualComponentGraph M) :
    (if isVisible this g then
        setShaderConstantBuffer (setShaderConstantBuffer g name .View g.view)
          name .Projection g.projection
      else g).m_TransformationStack = g.m_TransformationStack
      ∧ pushCount (if isVisible this g then
          setShaderConstantBuffer (setShaderConstantBuffer g name .View g.view)
            name .Projection g.projection
        else g).calls = pushCount g.calls
      ∧ popCount (if isVisible this g then
          setShaderConstantBuffer (setShaderConstantBuffer g name .View g.view)
            name .Projection g.projection
        else g).calls = popCount g.calls := by
  by_cases h : isVisible this g = true
  · simp [h, setShaderConstantBuffer, pushCount_append, popCount_append, pushCount, popCount]
  · simp [h]

variable [Mul M] [One M]

theorem preRender_spec (entity : String) (this : VisualComponent M)
    (g : VisualComponentGraph M) :
    ∃ top, (preRender entity this g).m_TransformationStack = g.m_TransformationStack ++ [top]
      ∧ pushCount (preRender entity this g).calls = pushCount g.calls + 1
      ∧ popCount (preRender entity this g).calls = popCount g.calls := by
  unfold preRender
  cases this.m_TransformComponent with
  | none =>
    exact ⟨_, rfl, by
      simp [setShaderConstantBuffer, VisualComponentGraph.pushMatrix, pushCount_append, pushCount],
      by simp [setShaderConstantBuffer, VisualComponentGraph.pushMatrix, popCount_append,
        popCount]⟩
  | some transform =>
    exact ⟨_, rfl, by
      simp [setShaderConstantBuffer, VisualComponentGraph.pushMatrix, pushCount_append, pushCount],
      by simp [setShaderConstantBuffer, VisualComponentGraph.pushMatrix, popCount_append,
        popCount]⟩

mutual
theorem renderChildren_spec (this : VisualComponent M) (m_Owner : Entity M)
    (g : VisualComponentGraph M) (h : m_Owner.allVisual = true) :
    ∃ g1, renderChildren this m_Owner g = some g1
      ∧ g1.m_TransformationStack = g.m_TransformationStack
      ∧ pushCount g1.calls = pushCount g.calls + m_Owner.descendants
      ∧ popCount g1.calls = popCount g.calls + m_Owner.descendants := by
  match m_Owner, h with
  | .mk name tc vc none, h => simp [Entity.allVisual] at h
  | .mk name tc vc (some m_Children), h =>
    obtain ⟨hs, hpu, hpo⟩ := cameraBuffers_spec this name g
    have hl : Entity.allVisualList m_Children = true := by simpa [Entity.allVisual] using h
    obtain ⟨g1, hr, h1, h2, h3⟩ := renderChildrenLoop_spec m_Children _ hl
    refine ⟨g1, ?_, ?_, ?_, ?_⟩
    · simp only [renderChildren]; exact hr
    · rw [h1, hs]
    · rw [h2, hpu]; simp [Entity.descendants]
    · rw [h3, hpo]; simp [Entity.descendants]
theorem renderChildrenLoop_spec (m_Children : List (Entity M)) (g : VisualComponentGraph M)
    (h : Entity.allVisualList m_Children = true) :
    ∃ g1, renderChildrenLoop m_Children g = some g1
      ∧ g1.m_TransformationStack = g.m_TransformationStack
      ∧ pushCount g1.calls = pushCount g.calls + Entity.descendantsList m_Children
      ∧ popCount g1.calls = popCount g.calls + Entity.descendantsList m_Children := by
  match m_Children, h with
  | [], _ => exact ⟨g, by simp [renderChildrenLoop], rfl, by simp [Entity.descendantsList],
      by simp [Entity.descendantsList]⟩
  | .mk name tc none hc :: rest, h => simp [Entity.allVisualList] at h
  | .mk name tc (some cvc) hc :: rest, h =>
    have hparts : Entity.allVisual (.mk name tc (some cvc) hc) = true
        ∧ Entity.allVisualList rest = true := by
      simpa [Entity.allVisualList] using h
    obtain ⟨top, p1, p2, p3⟩ := preRender_spec name cvc g
    obtain ⟨r1, r2, r3⟩ := render_spec name (preRender name cvc g)
    obtain ⟨g3, hg3, s1, s2, s3⟩ := renderChildren_spec cvc (.mk name tc (some cvc) hc)
      (if isVisible cvc (preRender name cvc g) then render name (preRender name cvc g)
        else preRender name cvc g) hparts.1
    obtain ⟨q1, q2, q3⟩ := postRender_spec g3
    obtain ⟨g4, hg4, t1, t2, t3⟩ := renderChildrenLoop_spec rest (postRender g3) hparts.2
    have hstack : (if isVisible cvc (preRender name cvc g) then render name (preRender name cvc g)
        else preRender name cvc g).m_TransformationStack = g.m_TransformationStack ++ [top] := by
      split
      · rw [r1, p1]
      · exact p1
    have hpush : pushCount (if isVisible cvc (preRender name cvc g) then
        render name (preRender name cvc g) else preRender name cvc g).calls
        = pushCount g.calls + 1 := by
      split
      · rw [r2, p2]
      · exact p2
    have hpop : popCount (if isVisible cvc (preRender name cvc g) then
        render name (preRender name cvc g) else preRender name cvc g).calls
        = popCount g.calls := by
      split
      · rw [r3, p3]
      · exact p3
    refine ⟨g4, ?_, ?_, ?_, ?_⟩
    · simp only [renderChildrenLoop, hg3, hg4]
    · rw [t1, q1, s1, hstack, List.dropLast_concat]
    · rw [t2, q2, s2, hpush]; simp only [Entity.descendantsList]; omega
    · rw [t3, q3, s3, hpop]; simp only [Entity.descendantsList]; omega
end

end TraversalProofs

/-! ## Setting up a visual component -/

/-- C13: for a visual component with an owner, `setup` returns true exactly when the owner
has a transform component and a hierarchy component; an owner without a transform component
fails it, and so does an owner without a hierarchy component. -/
theorem setup_status {M : Type} (this : VisualComponent M) (m_Owner : Entity M) :
    ((setup this (some m_Owner)).1 = true
        ↔ (m_Owner.transformComponent.isSome = true ∧ m_Owner.hierarchyComponent.isSome = true))
      ∧ (m_Owner.transformComponent = none → (setup this (some m_Owner)).1 = false)
      ∧ (m_Owner.hierarchyComponent = none → (setup this (some m_Owner)).1 = false) := by
  cases ht : m_Owner.transformComponent <;> cases hh : m_Owner.hierarchyComponent <;>
    simp [setup, ht, hh]

/-- C13, at concrete inputs: `child1` has a hierarchy component but no transform component
and fails, the scenario's root has both and passes. -/
theorem setup_status_witness :
    demoChild.transformComponent = none
      ∧ (setup demoRootVisual (some demoChild)).1 = false
      ∧ (setup demoRootVisual (some demoRoot)).1 = true :=
  ⟨rfl, (setup_status demoRootVisual demoChild).2.1 rfl,
    (setup_status demoRootVisual demoRoot).1.mpr ⟨rfl, rfl⟩⟩

/-! ## The particle pool -/

theorem resize_length (m_ParticlePool : List Particle) (poolSize : Nat) :
    (resize m_ParticlePool poolSize).length = poolSize := by
  simp [resize]

theorem decrement_pos (P i : Nat) (hi : 0 < i) (hP : i ≤ P) : (i + P - 1) % P = i - 1 := by
  have h : i + P - 1 = (i - 1) + P := by omega
  rw [h, Nat.add_mod_right]
  exact Nat.mod_eq_of_lt (by omega)

theorem decrement_zero (P : Nat) (hP : 0 < P) : (0 + P - 1) % P = P - 1 := by
  rw [Nat.zero_add]
  exact Nat.mod_eq_of_lt (by omega)

theorem wrap_divides (P n : Nat) (hn : 0 < n) (hP : 0 < P) (h : (P - 1) % n = n - 1) :
    n ∣ P := by
  have hd := Nat.div_add_mod (P - 1) n
  rw [h] at hd
  refine ⟨(P - 1) / n + 1, ?_⟩
  rw [Nat.mul_add, Nat.mul_one]
  omega

/-- One `emit` on a pool of `n` particles whose index is in bounds. -/
theorem emit_spec (w n : Nat) (this : CPUParticlesComponent) (hn : 0 < n) (hw : n ≤ 2 ^ w)
    (hlen : this.m_ParticlePool.length = n) (hidx : this.m_PoolIndex < n) :
    ∃ next, emit w this = some next
      ∧ next.m_ParticlePool.length = n
      ∧ next.m_PoolIndex = ((this.m_PoolIndex + 2 ^ w - 1) % 2 ^ w) % n
      ∧ next.m_PoolIndex < n := by
  have hlt : ((this.m_PoolIndex + 2 ^ w - 1) % 2 ^ w) % n < n := Nat.mod_lt _ hn
  have hsmall : (((this.m_PoolIndex + 2 ^ w - 1) % 2 ^ w) % n) % 2 ^ w
      = ((this.m_PoolIndex + 2 ^ w - 1) % 2 ^ w) % n :=
    Nat.mod_eq_of_lt (by omega)
  refine ⟨{ m_ParticlePool := this.m_ParticlePool.set this.m_PoolIndex { m_IsActive := true }
            m_PoolIndex := ((this.m_PoolIndex + 2 ^ w - 1) % 2 ^ w) % n }, ?_, ?_, rfl, hlt⟩
  · have hz : ¬ n = 0 := by omega
    simp [emit, hlen, hidx, hz, hsmall]
  · simp [hlen]

theorem emitTimes_spec (w n : Nat) (hn : 0 < n) (hw : n ≤ 2 ^ w) (count : Nat) :
    ∀ this : CPUParticlesComponent, this.m_ParticlePool.length = n → this.m_PoolIndex < n →
      ∃ after, emitTimes w count this = some after
        ∧ after.m_ParticlePool.length = n ∧ after.m_PoolIndex < n := by
  induction count with
  | zero => intro this hlen hidx; exact ⟨this, rfl, hlen, hidx⟩
  | succ k ih =>
    intro this hlen hidx
    obtain ⟨next, he, hl, _, hi⟩ := emit_spec w n this hn hw hlen hidx
    obtain ⟨after, ha, hal, hai⟩ := ih next hl hi
    exact ⟨after, by simp [emitTimes, he, ha], hal, hai⟩

/-- C16: for a pool size `n > 0` that the index type of width `w` can hold, `expandPool`
leaves a pool of `n` particles with the index at `n - 1`; any number of `emit` calls after it
succeed, so every access is in bounds, and leave the index below `n`. One `emit` takes an index
above zero down by one and takes index zero to `(2^w - 1) mod n`, which equals `n - 1` only
when `n` divides `2^w`. -/
theorem pool_index_in_bounds (w n : Nat) (this : CPUParticlesComponent)
    (hn : 0 < n) (hw : n ≤ 2 ^ w) :
    (expandPool w this n).m_ParticlePool.length = n
      ∧ (expandPool w this n).m_PoolIndex = n - 1
      ∧ (∀ count, ∃ after, emitTimes w count (expandPool w this n) = some after
          ∧ after.m_ParticlePool.length = n ∧ after.m_PoolIndex < n)
      ∧ (∀ s : CPUParticlesComponent, s.m_ParticlePool.length = n → s.m_PoolIndex < n →
          ∃ next, emit w s = some next
            ∧ next.m_ParticlePool.length = n
            ∧ next.m_PoolIndex < n
            ∧ (0 < s.m_PoolIndex → next.m_PoolIndex = s.m_PoolIndex - 1)
            ∧ (s.m_PoolIndex = 0 → next.m_PoolIndex = (2 ^ w - 1) % n))
      ∧ ((2 ^ w - 1) % n = n - 1 → n ∣ 2 ^ w) := by
  have hP : 0 < 2 ^ w := Nat.pos_pow_of_pos w (by decide)
  have hlen : (expandPool w this n).m_ParticlePool.length = n := resize_length _ _
  have hidx : (expandPool w this n).m_PoolIndex = n - 1 := decrement_pos (2 ^ w) n hn hw
  refine ⟨hlen, hidx, ?_, ?_, wrap_divides (2 ^ w) n hn hP⟩
  · intro count
    exact emitTimes_spec w n hn hw count _ hlen (by rw [hidx]; omega)
  · intro s hl hi
    obtain ⟨next, he, hnl, hv, hlt⟩ := emit_spec w n s hn hw hl hi
    refine ⟨next, he, hnl, hlt, ?_, ?_⟩
    · intro hpos
      rw [hv, decrement_pos (2 ^ w) s.m_PoolIndex hpos (by omega)]
      exact Nat.mod_eq_of_lt (by omega)
    · intro hzero
      rw [hv, hzero, decrement_zero (2 ^ w) hP]

/-- C16, at a concrete input: a pool of 3 particles and a 3-bit index. The index starts
at 2, after two `emit` calls it is 0, and the third takes it to `7 mod 3 = 1`, not to 2. -/
theorem pool_index_in_bounds_witness :
    0 < 3 ∧ 3 ≤ 2 ^ 3
      ∧ (expandPool 3 demoParticles 3).m_PoolIndex = 2
      ∧ (∃ after, emitTimes 3 4 (expandPool 3 demoParticles 3) = some after
          ∧ after.m_ParticlePool.length = 3 ∧ after.m_PoolIndex < 3)
      ∧ (emitTimes 3 2 (expandPool 3 demoParticles 3)).map (fun s => s.m_PoolIndex) = some 0
      ∧ (emitTimes 3 3 (expandPool 3 demoParticles 3)).map (fun s => s.m_PoolIndex) = some 1 :=
  ⟨by decide, by decide,
    (pool_index_in_bounds 3 3 demoParticles (by decide) (by decide)).2.1,
    (pool_index_in_bounds 3 3 demoParticles (by decide) (by decide)).2.2.1 4,
    by decide, by decide⟩

/-! ## Creating a level -/

theorem takeWhile_append_stop {α : Type} (p : α → Bool) (l r : List α) (a : α)
    (hl : ∀ c, c ∈ l → p c = true) (ha : p a = false) :
    (l ++ a :: r).takeWhile p = l := by
  induction l with
  | nil => simp [List.takeWhile, ha]
  | cons c cs ih =>
    have hc : p c = true := hl c (List.mem_cons_self _ _)
    simp only [List.cons_append, List.takeWhile_cons, hc, if_true]
    rw [ih (fun d hd => hl d (List.mem_cons_of_mem _ hd))]

/-- The file name of a path made of the levels directory and a name without a separator. -/
theorem filename_levels (newLevelName : String) (h : '/' ∉ newLevelName.toList) :
    filename ("game/assets/levels/" ++ newLevelName) = newLevelName := by
  unfold filename
  have hrev : ("game/assets/levels/" ++ newLevelName).toList.reverse
      = newLevelName.toList.reverse ++ '/' :: "game/assets/levels".toList.reverse := by
    rw [String.toList, String.data_append, List.reverse_append]
    rfl
  rw [hrev, takeWhile_append_stop _ _ _ '/' _ (by decide)]
  · simp [String.toList]
  · intro c hc
    have hne : c ≠ '/' := by
      intro hEq
      apply h
      rw [← hEq]
      exact List.mem_reverse.mp hc
    simpa using hne

theorem newLevelJSON_members (ROOT_ENTITY_ID : Int) :
    newLevelJSON ROOT_ENTITY_ID
      = .object [("camera", .number ROOT_ENTITY_ID), ("inputSchemes", .array []),
          ("startScheme", .string ""), ("listener", .number ROOT_ENTITY_ID),
          ("preload", .array [])] := by
  rfl

/-- The document at the settings path after `createLevel` is the dump of `newLevelJSON`. -/
theorem createLevel_getString (x : External) (ROOT_ENTITY_ID : Int) (w : World)
    (newLevelName : String) :
    (createLevel x ROOT_ENTITY_ID w newLevelName).getString
        ("game/assets/levels/" ++ newLevelName ++ "/" ++ newLevelName ++ ".level.json")
      = some (x.dump (newLevelJSON ROOT_ENTITY_ID)) := by
  simp [createLevel, OS.CreateFileName, World.getString, World.log, OS.CreateDirectoryName]

/-- C14: for a level name without a path separator, the settings file `createLevel` writes
is the one the descriptor constructor reads for the level's path; when the parser gives back
the document that was dumped, the constructor returns a descriptor with that name, that file,
an empty preload list and the settings `createLevel` built: an empty `inputSchemes` array, an
empty `startScheme`, and `camera` and `listener` equal to `ROOT_ENTITY_ID`. -/
theorem createLevel_roundtrip (x : External) (ROOT_ENTITY_ID : Int) (w : World)
    (newLevelName : String) (hSep : '/' ∉ newLevelName.toList)
    (hParse : x.parse (x.dump (newLevelJSON ROOT_ENTITY_ID))
      = some (newLevelJSON ROOT_ENTITY_ID)) :
    ∃ level,
      LevelDescription.load x (createLevel x ROOT_ENTITY_ID w newLevelName)
          ("game/assets/levels/" ++ newLevelName) = .ok level
        ∧ level.m_LevelName = newLevelName
        ∧ level.m_LevelSettingsFile
          = some ("game/assets/levels/" ++ newLevelName ++ "/" ++ newLevelName ++ ".level.json")
        ∧ Call.createFileName
            ("game/assets/levels/" ++ newLevelName ++ "/" ++ newLevelName ++ ".level.json")
            (x.dump (newLevelJSON ROOT_ENTITY_ID))
          ∈ (createLevel x ROOT_ENTITY_ID w newLevelName).calls
        ∧ level.m_LevelSettings = newLevelJSON ROOT_ENTITY_ID
        ∧ level.m_Preloads = []
        ∧ level.m_LevelSettings.find "inputSchemes" = some (.array [])
        ∧ level.m_LevelSettings.find "startScheme" = some (.string "")
        ∧ level.m_LevelSettings.find "camera" = some (.number ROOT_ENTITY_ID)
        ∧ level.m_LevelSettings.find "listener" = some (.number ROOT_ENTITY_ID) := by
  refine ⟨{ m_LevelName := newLevelName
            m_LevelSettingsFile := some ("game/assets/levels/" ++ newLevelName ++ "/"
              ++ newLevelName ++ ".level.json")
            m_LevelSettings := newLevelJSON ROOT_ENTITY_ID
            m_Preloads := [] }, ?_, rfl, rfl, ?_, rfl, rfl, rfl, rfl, rfl, rfl⟩
  · have hfind : (newLevelJSON ROOT_ENTITY_ID).find "preload" = some (.array []) := rfl
    simp only [LevelDescription.load, filename_levels newLevelName hSep,
      createLevel_getString, hParse, hfind]
    rfl
  · simp [createLevel, OS.CreateFileName, World.log]

/-- C14, at a concrete input: level `X` is created from the scenario's start with
`ROOT_ENTITY_ID` 1 and read back. -/
theorem createLevel_roundtrip_witness :
    '/' ∉ "X".toList
      ∧ demoExternal.parse (demoExternal.dump (newLevelJSON 1)) = some (newLevelJSON 1)
      ∧ ∃ level,
          LevelDescription.load demoExternal (createLevel demoExternal 1 demoStart "X")
              "game/assets/levels/X" = .ok level
            ∧ level.m_LevelName = "X"
            ∧ level.m_Preloads = []
            ∧ level.m_LevelSettings.find "camera" = some (.number 1) := by
  obtain ⟨level, hl, hn, _, _, _, hp, _, _, hc, _⟩ :=
    createLevel_roundtrip demoExternal 1 demoStart "X" (by decide) rfl
  exact ⟨by decide, rfl, level, hl, hn, hp, hc⟩

/-! ## A node without a transform component -/

section MonoidTraversal

variable {M : Type} [Monoid M]

theorem getTopMatrix_push (g : VisualComponentGraph M) (transform : M) :
    (g.pushMatrix transform).getTopMatrix = g.getTopMatrix * transform := by
  simp [VisualComponentGraph.pushMatrix, VisualComponentGraph.getTopMatrix]

theorem preRender_stack (entity : String) (this : VisualComponent M)
    (g : VisualComponentGraph M) :
    (preRender entity this g).m_TransformationStack
        = g.m_TransformationStack ++ [g.getTopMatrix * this.m_TransformComponent.getD 1]
      ∧ (preRender entity this g).calls
        = g.calls ++ [.pushMatrix (this.m_TransformComponent.getD 1),
            .setShaderConstantBuffer entity .Model
              (g.getTopMatrix * this.m_TransformComponent.getD 1)] := by
  unfold preRender
  cases this.m_TransformComponent with
  | none =>
    simp [setShaderConstantBuffer, VisualComponentGraph.pushMatrix,
      VisualComponentGraph.getTopMatrix]
  | some transform =>
    simp [setShaderConstantBuffer, VisualComponentGraph.pushMatrix,
      VisualComponentGraph.getTopMatrix]

end MonoidTraversal

section MonoidClaims

variable {M : Type} [Monoid M]

/-- The loop of `renderChildren` over a single child without a transform component that has
a single child of its own with a transform component and no children. -/
theorem chain_models (child1 grandchild : String) (tc1 tcg : Option M)
    (v1 vg : VisualComponent M) (localTransform : M) (g : VisualComponentGraph M)
    (h1 : v1.m_TransformComponent = none) (hg : vg.m_TransformComponent = some localTransform) :
    ∃ g1, renderChildrenLoop
        [.mk child1 tc1 (some v1) (some [.mk grandchild tcg (some vg) (some [])])] g = some g1
      ∧ RenderCall.setShaderConstantBuffer child1 .Model g.getTopMatrix ∈ g1.calls
      ∧ RenderCall.setShaderConstantBuffer grandchild .Model (g.getTopMatrix * localTransform)
          ∈ g1.calls := by
  cases hv1 : v1.m_IsVisible <;> cases hvg : vg.m_IsVisible <;>
    simp [renderChildrenLoop, renderChildren, preRender, postRender, render, isVisible, h1, hg,
      hv1, hvg, setShaderConstantBuffer, VisualComponentGraph.pushMatrix,
      VisualComponentGraph.popMatrix, VisualComponentGraph.getTopMatrix]

/-- C15: `preRender` of a node whose transform component pointer is null pushes exactly one
entry, whose value is the top of the stack before the call, so the top is unchanged; that is
the stack `preRender` leaves for a node whose local transform is the identity. In a chain
where `child1` has no transform component and `grandchild` has local transform `L`, the
traversal started with top `T` sets the Model matrix of `child1` to `T` and that of
`grandchild` to `T` times `L`. -/
theorem preRender_without_transform (entity : String) (this : VisualComponent M)
    (g : VisualComponentGraph M) (h : this.m_TransformComponent = none) :
    (preRender entity this g).m_TransformationStack
        = g.m_TransformationStack ++ [g.getTopMatrix]
      ∧ (preRender entity this g).getTopMatrix = g.getTopMatrix
      ∧ (preRender entity this g).m_TransformationStack
        = (preRender entity { this with m_TransformComponent := some (1 : M) } g).m_TransformationStack
      ∧ ∀ (grandchild : String) (tc1 tcg : Option M) (below : VisualComponent M) (L : M),
          below.m_TransformComponent = some L →
          ∃ g1, renderChildrenLoop
              [.mk entity tc1 (some this) (some [.mk grandchild tcg (some below) (some [])])] g
              = some g1
            ∧ RenderCall.setShaderConstantBuffer entity .Model g.getTopMatrix ∈ g1.calls
            ∧ RenderCall.setShaderConstantBuffer grandchild .Model (g.getTopMatrix * L)
                ∈ g1.calls := by
  have hs := (preRender_stack entity this g).1
  rw [h] at hs
  simp only [Option.getD_none, mul_one] at hs
  refine ⟨hs, ?_, ?_, ?_⟩
  · simp [VisualComponentGraph.getTopMatrix, hs]
  · rw [hs, (preRender_stack entity { this with m_TransformComponent := some (1 : M) } g).1]
    simp
  · intro grandchild tc1 tcg below L hL
    exact chain_models entity grandchild tc1 tcg this below L g h hL

end MonoidClaims

/-- C15, at the scenario's chain with integers for matrices: the traversal starts with the
root's cumulative transform 2 on the stack, `child1` has no transform component, `grandchild`
has local transform 5, and the Model matrix of `grandchild` is 10. -/
theorem preRender_without_transform_witness :
    ({ m_IsVisible := false, m_TransformComponent := none } : VisualComponent Int).m_TransformComponent
        = none
      ∧ demoGraphAtRoot.getTopMatrix = 2
      ∧ (preRender "child1" { m_IsVisible := false, m_TransformComponent := none }
          demoGraphAtRoot).m_TransformationStack = [2, 2]
      ∧ ∃ g1, renderChildrenLoop [demoChild] demoGraphAtRoot = some g1
          ∧ RenderCall.setShaderConstantBuffer "grandchild" .Model 10 ∈ g1.calls := by
  obtain ⟨hs, _, _, hchain⟩ := preRender_without_transform (M := Int) "child1"
    { m_IsVisible := false, m_TransformComponent := none } demoGraphAtRoot rfl
  obtain ⟨g1, hg1, _, hm⟩ := hchain "grandchild" none (some 5)
    { m_IsVisible := true, m_TransformComponent := some 5 } 5 rfl
  exact ⟨rfl, rfl, hs, g1, hg1, hm⟩

/-! ## The calls of a traversal -/

section TraversalCalls

variable {M : Type}

theorem drawCalls_append (a b : List (RenderCall M)) :
    drawCalls (a ++ b) = drawCalls a ++ drawCalls b := by
  simp [drawCalls]

theorem cameraAfterDraw_append (view projection : M) (a b : List (RenderCall M))
    (ha : cameraAfterDraw view projection a) (hb : cameraAfterDraw view projection b) :
    cameraAfterDraw view projection (a ++ b) := by
  induction a with
  | nil => simpa using hb
  | cons c rest ih =>
    cases c with
    | draw entity =>
      simp only [cameraAfterDraw] at ha
      simp only [List.cons_append, cameraAfterDraw]
      refine ⟨?_, ih ha.2⟩
      have hlen : 2 ≤ rest.length := by
        have h2 := congrArg List.length ha.1
        simp only [List.length_take, List.length_cons, List.length_nil] at h2
        omega
      show List.take 2 (rest ++ b) = _
      rw [List.take_append_of_le_length hlen]
      exact ha.1
    | pushMatrix t =>
      simp only [cameraAfterDraw] at ha
      simp only [List.cons_append, cameraAfterDraw]
      exact ih ha
    | popMatrix =>
      simp only [cameraAfterDraw] at ha
      simp only [List.cons_append, cameraAfterDraw]
      exact ih ha
    | setShaderConstantBuffer e t v =>
      simp only [cameraAfterDraw] at ha
      simp only [List.cons_append, cameraAfterDraw]
      exact ih ha

/-- The calls one visit of the loop makes before it descends: the push, the Model update,
the draw when the flag is set, and what the top of `renderChildren` does for the child. -/
theorem visit_head (name : String) (visible : Bool) (t m view projection : M) :
    drawCalls ([RenderCall.pushMatrix t, .setShaderConstantBuffer name .Model m]
        ++ (if visible then [RenderCall.draw name] else [])
        ++ (if visible then
              [RenderCall.setShaderConstantBuffer name .View view,
               .setShaderConstantBuffer name .Projection projection]
            else []))
        = (if visible then [name] else [])
      ∧ cameraAfterDraw view projection
          ([RenderCall.pushMatrix t, .setShaderConstantBuffer name .Model m]
            ++ (if visible then [RenderCall.draw name] else [])
            ++ (if visible then
                  [RenderCall.setShaderConstantBuffer name .View view,
                   .setShaderConstantBuffer name .Projection projection]
                else [])) := by
  cases visible <;> simp [drawCalls, cameraAfterDraw]

theorem preorder_length_aux :
    ∀ n : Nat, (∀ e : Entity M, sizeOf e ≤ n →
        (Entity.preorderBelow e).length = Entity.descendants e)
      ∧ (∀ l : List (Entity M), sizeOf l ≤ n →
        (Entity.preorderList l).length = Entity.descendantsList l) := by
  intro n
  induction n with
  | zero =>
    refine ⟨fun e he => ?_, fun l hl => ?_⟩
    · cases e; simp at he
    · cases l with
      | nil => simp [Entity.preorderList, Entity.descendantsList]
      | cons c cs => simp at hl
  | succ k ih =>
    refine ⟨fun e he => ?_, fun l hl => ?_⟩
    · match e, he with
      | .mk _ _ _ none, _ => simp [Entity.preorderBelow, Entity.descendants]
      | .mk _ _ _ (some cs), he =>
        simp only [Entity.preorderBelow, Entity.descendants]
        apply ih.2
        simp at he
        omega
    · match l, hl with
      | [], _ => simp [Entity.preorderList, Entity.descendantsList]
      | .mk a b c d :: rest, hl =>
        simp only [Entity.preorderList, Entity.descendantsList, List.length_cons,
          List.length_append]
        simp at hl
        rw [ih.1 (.mk a b c d) (by simp; omega), ih.2 rest (by omega)]
        omega

variable [Mul M] [One M]

theorem preRender_calls (entity : String) (this : VisualComponent M)
    (g : VisualComponentGraph M) :
    ∃ t m, (preRender entity this g).calls
        = g.calls ++ [.pushMatrix t, .setShaderConstantBuffer entity .Model m]
      ∧ (preRender entity this g).view = g.view
      ∧ (preRender entity this g).projection = g.projection := by
  unfold preRender
  cases this.m_TransformComponent with
  | none =>
    exact ⟨1, (g.pushMatrix 1).getTopMatrix,
      by simp [setShaderConstantBuffer, VisualComponentGraph.pushMatrix], rfl, rfl⟩
  | some transform =>
    exact ⟨transform, (g.pushMatrix transform).getTopMatrix,
      by simp [setShaderConstantBuffer, VisualComponentGraph.pushMatrix], rfl, rfl⟩

mutual
theorem renderChildren_calls (this : VisualComponent M) (m_Owner : Entity M)
    (g : VisualComponentGraph M) (h : m_Owner.allVisual = true) :
    ∃ g1 below, renderChildren this m_Owner g = some g1
      ∧ g1.view = g.view ∧ g1.projection = g.projection
      ∧ g1.calls = g.calls
          ++ (if this.m_IsVisible then
                [RenderCall.setShaderConstantBuffer m_Owner.name .View g.view,
                 .setShaderConstantBuffer m_Owner.name .Projection g.projection]
              else [])
          ++ below
      ∧ drawCalls below
          = ((Entity.preorderBelow m_Owner).filter Entity.flagSet).map Entity.name
      ∧ cameraAfterDraw g.view g.projection below := by
  match m_Owner, h with
  | .mk name tc vc none, h => simp [Entity.allVisual] at h
  | .mk name tc vc (some m_Children), h =>
    have hl : Entity.allVisualList m_Children = true := by simpa [Entity.allVisual] using h
    by_cases hv : this.m_IsVisible = true
    · obtain ⟨g1, below, hr, h1, h2, h3, h4, h5⟩ := renderChildrenLoop_calls m_Children
        (setShaderConstantBuffer (setShaderConstantBuffer g name .View g.view)
          name .Projection g.projection) hl
      refine ⟨g1, below, ?_, h1, h2, ?_, ?_, h5⟩
      · simp only [renderChildren, isVisible, hv, if_true]; exact hr
      · rw [h3]; simp [setShaderConstantBuffer, hv, Entity.name]
      · rw [h4]; simp [Entity.preorderBelow]
    · obtain ⟨g1, below, hr, h1, h2, h3, h4, h5⟩ := renderChildrenLoop_calls m_Children g hl
      refine ⟨g1, below, ?_, h1, h2, ?_, ?_, h5⟩
      · simp only [renderChildren, isVisible, hv]; exact hr
      · rw [h3]; simp [hv]
      · rw [h4]; simp [Entity.preorderBelow]
theorem renderChildrenLoop_calls (m_Children : List (Entity M)) (g : VisualComponentGraph M)
    (h : Entity.allVisualList m_Children = true) :
    ∃ g1 below, renderChildrenLoop m_Children g = some g1
      ∧ g1.view = g.view ∧ g1.projection = g.projection
      ∧ g1.calls = g.calls ++ below
      ∧ drawCalls below
          = ((Entity.preorderList m_Children).filter Entity.flagSet).map Entity.name
      ∧ cameraAfterDraw g.view g.projection below := by
  match m_Children, h with
  | [], _ =>
    exact ⟨g, [], by simp [renderChildrenLoop], rfl, rfl, by simp,
      by simp [Entity.preorderList, drawCalls], by simp [cameraAfterDraw]⟩
  | .mk name tc none hc :: rest, h => simp [Entity.allVisualList] at h
  | .mk name tc (some cvc) hc :: rest, h =>
    have hparts : Entity.allVisual (.mk name tc (some cvc) hc) = true
        ∧ Entity.allVisualList rest = true := by
      simpa [Entity.allVisualList] using h
    obtain ⟨t, m, p1, p2, p3⟩ := preRender_calls name cvc g
    obtain ⟨g3, belowC, hg3, c1, c2, c3, c4, c5⟩ := renderChildren_calls cvc
      (.mk name tc (some cvc) hc)
      (if isVisible cvc (preRender name cvc g) then render name (preRender name cvc g)
        else preRender name cvc g) hparts.1
    obtain ⟨g4, belowR, hg4, r1, r2, r3, r4, r5⟩ :=
      renderChildrenLoop_calls rest (postRender g3) hparts.2
    have hview : (if isVisible cvc (preRender name cvc g) then
        render name (preRender name cvc g) else preRender name cvc g).view = g.view := by
      split
      · exact p2
      · exact p2
    have hproj : (if isVisible cvc (preRender name cvc g) then
        render name (preRender name cvc g) else preRender name cvc g).projection
        = g.projection := by
      split
      · exact p3
      · exact p3
    have hcalls2 : (if isVisible cvc (preRender name cvc g) then
        render name (preRender name cvc g) else preRender name cvc g).calls
        = g.calls ++ [.pushMatrix t, .setShaderConstantBuffer name .Model m]
          ++ (if cvc.m_IsVisible then [RenderCall.draw name] else []) := by
      by_cases hv : cvc.m_IsVisible = true
      · simp [isVisible, hv, render, p1]
      · simp [isVisible, hv, p1]
    rw [hview, hproj] at c3 c5
    rw [hview] at c1
    rw [hproj] at c2
    have hpv : (postRender g3).view = g.view := c1
    have hpp : (postRender g3).projection = g.projection := c2
    rw [hpv, hpp] at r5
    obtain ⟨hd, hc⟩ := visit_head name cvc.m_IsVisible t m g.view g.projection
    refine ⟨g4, ([RenderCall.pushMatrix t, .setShaderConstantBuffer name .Model m]
        ++ (if cvc.m_IsVisible then [RenderCall.draw name] else [])
        ++ (if cvc.m_IsVisible then
              [RenderCall.setShaderConstantBuffer name .View g.view,
               .setShaderConstantBuffer name .Projection g.projection]
            else []))
        ++ belowC ++ [.popMatrix] ++ belowR, ?_, ?_, ?_, ?_, ?_, ?_⟩
    · simp only [renderChildrenLoop, hg3, hg4]
    · rw [r1]; exact hpv
    · rw [r2]; exact hpp
    · rw [r3]
      simp only [postRender, VisualComponentGraph.popMatrix, c3, hcalls2, Entity.name,
        List.append_assoc]
    · rw [drawCalls_append, drawCalls_append, drawCalls_append, hd, c4, r4]
      simp only [Entity.preorderList, List.filter_cons, List.filter_append, List.map_append]
      by_cases hv : cvc.m_IsVisible = true
      · simp [hv, Entity.flagSet, Entity.visualComponent, Entity.name, drawCalls]
      · simp [hv, Entity.flagSet, Entity.visualComponent, Entity.name, drawCalls]
    · refine cameraAfterDraw_append _ _ _ _ (cameraAfterDraw_append _ _ _ _
        (cameraAfterDraw_append _ _ _ _ hc c5) (by simp [cameraAfterDraw])) r5
end

end TraversalCalls

section TraversalClaims

variable {M : Type} [Mul M] [One M]

/-- C11: on a hierarchy in which every node has a hierarchy component and every node below
the owner has a visual component, the `draw` calls `renderChildren` adds are, in order, the
nodes below the owner in depth-first pre-order, children in sibling order, that have their
visibility flag set; the listing holds every node below the owner, so the nodes below a node
whose flag is clear are visited and drawn by their own flags. -/
theorem renderChildren_draws_preorder (this : VisualComponent M) (m_Owner : Entity M)
    (g : VisualComponentGraph M) (h : m_Owner.allVisual = true) :
    ∃ g1 added, renderChildren this m_Owner g = some g1
      ∧ g1.calls = g.calls ++ added
      ∧ drawCalls added
          = ((Entity.preorderBelow m_Owner).filter Entity.flagSet).map Entity.name
      ∧ (Entity.preorderBelow m_Owner).length = m_Owner.descendants := by
  obtain ⟨g1, below, hr, _, _, hc, hd, _⟩ := renderChildren_calls this m_Owner g h
  refine ⟨g1, _, hr, by rw [hc, List.append_assoc], ?_,
    (preorder_length_aux (sizeOf m_Owner)).1 m_Owner (Nat.le_refl _)⟩
  rw [drawCalls_append, hd]
  by_cases hv : this.m_IsVisible = true
  · simp [hv, drawCalls]
  · simp [hv, drawCalls]

/-- C12, as the code has it: on such a hierarchy every `draw` call `renderChildren` adds is
directly followed by the View update and then the Projection update, with the matrices of the
camera, on the material of the node just drawn; these are the first calls of that node's own
`renderChildren`, so they come after its draw call and before any call for its children. The
draw calls are those of the visible nodes below the owner. -/
theorem camera_updates_follow_draw (this : VisualComponent M) (m_Owner : Entity M)
    (g : VisualComponentGraph M) (h : m_Owner.allVisual = true) :
    ∃ g1 added, renderChildren this m_Owner g = some g1
      ∧ g1.calls = g.calls ++ added
      ∧ cameraAfterDraw g.view g.projection added
      ∧ drawCalls added
          = ((Entity.preorderBelow m_Owner).filter Entity.flagSet).map Entity.name := by
  obtain ⟨g1, below, hr, _, _, hc, hd, hp⟩ := renderChildren_calls this m_Owner g h
  refine ⟨g1, _, hr, by rw [hc, List.append_assoc], ?_, ?_⟩
  · apply cameraAfterDraw_append _ _ _ _ _ hp
    by_cases hv : this.m_IsVisible = true
    · simp [hv, cameraAfterDraw]
    · simp [hv, cameraAfterDraw]
  · rw [drawCalls_append, hd]
    by_cases hv : this.m_IsVisible = true
    · simp [hv, drawCalls]
    · simp [hv, drawCalls]

end TraversalClaims

/-- C11, at the scenario's hierarchy: `child1` has its flag clear and is not drawn, its child
`grandchild` is drawn, then `child2`. -/
theorem renderChildren_draws_preorder_witness :
    demoRoot.allVisual = true
      ∧ (Entity.preorderBelow demoRoot).map Entity.name = ["child1", "grandchild", "child2"]
      ∧ demoChild.flagSet = false
      ∧ ∃ g1 added, renderChildren demoRootVisual demoRoot demoGraph = some g1
          ∧ g1.calls = demoGraph.calls ++ added
          ∧ drawCalls added = ["grandchild", "child2"] := by
  obtain ⟨g1, added, hr, hc, hd, _⟩ :=
    renderChildren_draws_preorder demoRootVisual demoRoot demoGraph rfl
  exact ⟨rfl, by decide, rfl, g1, added, hr, hc, hd.trans (by decide)⟩

/-- C12 fails as stated: in the traversal of the scenario's hierarchy the draw call for
`child2` is the call at position 13 and the first View update on the material of `child2` is
the call at position 14; likewise `grandchild` is drawn at position 6 and gets its View
update at position 7. Before its draw call neither node has received a View or Projection
update. -/
theorem draw_precedes_camera_updates :
    (renderChildren demoRootVisual demoRoot demoGraphAtRoot).map (fun g => g.calls)
        = some [.setShaderConstantBuffer "root" .View 7,
                .setShaderConstantBuffer "root" .Projection 11,
                .pushMatrix 1,
                .setShaderConstantBuffer "child1" .Model 2,
                .pushMatrix 5,
                .setShaderConstantBuffer "grandchild" .Model 10,
                .draw "grandchild",
                .setShaderConstantBuffer "grandchild" .View 7,
                .setShaderConstantBuffer "grandchild" .Projection 11,
                .popMatrix,
                .popMatrix,
                .pushMatrix 3,
                .setShaderConstantBuffer "child2" .Model 6,
                .draw "child2",
                .setShaderConstantBuffer "child2" .View 7,
                .setShaderConstantBuffer "child2" .Projection 11,
                .popMatrix]
      ∧ (renderChildren demoRootVisual demoRoot demoGraphAtRoot).map
          (fun g => (g.calls.indexOf (.draw "child2"),
            g.calls.indexOf (.setShaderConstantBuffer "child2" .View 7),
            g.calls.indexOf (.setShaderConstantBuffer "child2" .Projection 11)))
        = some (13, 14, 15)
      ∧ (renderChildren demoRootVisual demoRoot demoGraphAtRoot).map
          (fun g => (g.calls.indexOf (.draw "grandchild"),
            g.calls.indexOf (.setShaderConstantBuffer "grandchild" .View 7),
            g.calls.indexOf (.setShaderConstantBuffer "grandchild" .Projection 11)))
        = some (6, 7, 8) := by
  refine ⟨by decide, by decide, by decide⟩

/-- C12, at the scenario's hierarchy: both draw calls are directly followed by the camera
updates of the node drawn. -/
theorem camera_updates_follow_draw_witness :
    demoRoot.allVisual = true
      ∧ ∃ g1 added, renderChildren demoRootVisual demoRoot demoGraphAtRoot = some g1
          ∧ g1.calls = demoGraphAtRoot.calls ++ added
          ∧ cameraAfterDraw 7 11 added
          ∧ drawCalls added = ["grandchild", "child2"] := by
  obtain ⟨g1, added, hr, hc, hp, hd⟩ :=
    camera_updates_follow_draw demoRootVisual demoRoot demoGraphAtRoot rfl
  exact ⟨rfl, g1, added, hr, hc, hp, hd.trans (by decide)⟩

section NestingProofs

variable {M : Type}

theorem stackOps_append (a b : List (RenderCall M)) :
    stackOps (a ++ b) = stackOps a ++ stackOps b := by
  simp [stackOps]

variable [Mul M] [One M]

mutual
theorem renderChildren_nesting (this : VisualComponent M) (m_Owner : Entity M)
    (g : VisualComponentGraph M) (h : m_Owner.allVisual = true) :
    ∃ g1 added, renderChildren this m_Owner g = some g1
      ∧ g1.calls = g.calls ++ added
      ∧ stackOps added = Entity.nestingBelow m_Owner := by
  match m_Owner, h with
  | .mk name tc vc none, h => simp [Entity.allVisual] at h
  | .mk name tc vc (some m_Children), h =>
    have hl : Entity.allVisualList m_Children = true := by simpa [Entity.allVisual] using h
    by_cases hv : this.m_IsVisible = true
    · obtain ⟨g1, added, hr, hc, hs⟩ := renderChildrenLoop_nesting m_Children
        (setShaderConstantBuffer (setShaderConstantBuffer g name .View g.view)
          name .Projection g.projection) hl
      refine ⟨g1, [.setShaderConstantBuffer name .View g.view,
        .setShaderConstantBuffer name .Projection g.projection] ++ added, ?_, ?_, ?_⟩
      · simp only [renderChildren, isVisible, hv, if_true]; exact hr
      · rw [hc]; simp [setShaderConstantBuffer]
      · rw [stackOps_append, hs]; simp [stackOps, Entity.nestingBelow]
    · obtain ⟨g1, added, hr, hc, hs⟩ := renderChildrenLoop_nesting m_Children g hl
      refine ⟨g1, added, ?_, hc, ?_⟩
      · simp only [renderChildren, isVisible, hv]; exact hr
      · rw [hs]; simp [Entity.nestingBelow]
theorem renderChildrenLoop_nesting (m_Children : List (Entity M)) (g : VisualComponentGraph M)
    (h : Entity.allVisualList m_Children = true) :
    ∃ g1 added, renderChildrenLoop m_Children g = some g1
      ∧ g1.calls = g.calls ++ added
      ∧ stackOps added = Entity.nestingList m_Children := by
  match m_Children, h with
  | [], _ =>
    exact ⟨g, [], by simp [renderChildrenLoop], by simp, by simp [Entity.nestingList, stackOps]⟩
  | .mk name tc none hc :: rest, h => simp [Entity.allVisualList] at h
  | .mk name tc (some cvc) hc :: rest, h =>
    have hparts : Entity.allVisual (.mk name tc (some cvc) hc) = true
        ∧ Entity.allVisualList rest = true := by
      simpa [Entity.allVisualList] using h
    obtain ⟨t, m, p1, _, _⟩ := preRender_calls name cvc g
    obtain ⟨g3, addedC, hg3, c1, c2⟩ := renderChildren_nesting cvc
      (.mk name tc (some cvc) hc)
      (if isVisible cvc (preRender name cvc g) then render name (preRender name cvc g)
        else preRender name cvc g) hparts.1
    obtain ⟨g4, addedR, hg4, r1, r2⟩ :=
      renderChildrenLoop_nesting rest (postRender g3) hparts.2
    have hcalls2 : (if isVisible cvc (preRender name cvc g) then
        render name (preRender name cvc g) else preRender name cvc g).calls
        = g.calls ++ ([.pushMatrix t, .setShaderConstantBuffer name .Model m]
          ++ (if cvc.m_IsVisible then [RenderCall.draw name] else [])) := by
      by_cases hv : cvc.m_IsVisible = true
      · simp [isVisible, hv, render, p1]
      · simp [isVisible, hv, p1]
    have hhead : stackOps ([RenderCall.pushMatrix t, .setShaderConstantBuffer name .Model m]
        ++ (if cvc.m_IsVisible then [RenderCall.draw name] else [])) = [StackOp.push] := by
      by_cases hv : cvc.m_IsVisible = true
      · simp [hv, stackOps]
      · simp [hv, stackOps]
    refine ⟨g4, ([RenderCall.pushMatrix t, .setShaderConstantBuffer name .Model m]
        ++ (if cvc.m_IsVisible then [RenderCall.draw name] else []))
        ++ addedC ++ [.popMatrix] ++ addedR, ?_, ?_, ?_⟩
    · simp only [renderChildrenLoop, hg3, hg4]
    · rw [r1]
      simp only [postRender, VisualComponentGraph.popMatrix, c1, hcalls2, List.append_assoc]
    · rw [stackOps_append, stackOps_append, stackOps_append, hhead, c2, r2]
      simp [stackOps, Entity.nestingList]
end

/-- One visit of the loop of `renderChildren`: the child's `preRender` has pushed one entry
when its subtree is entered, the subtree hands the stack back as it got it, and the child's
`postRender` then pops that entry. -/
theorem visit_around_subtree (name : String) (tc : Option M) (cvc : VisualComponent M)
    (hc : Option (List (Entity M))) (rest : List (Entity M)) (g : VisualComponentGraph M)
    (h : Entity.allVisual (.mk name tc (some cvc) hc) = true) :
    ∃ gOut, renderChildren cvc (.mk name tc (some cvc) hc)
          (if isVisible cvc (preRender name cvc g) then render name (preRender name cvc g)
            else preRender name cvc g) = some gOut
      ∧ (if isVisible cvc (preRender name cvc g) then render name (preRender name cvc g)
            else preRender name cvc g).m_TransformationStack.length
          = g.m_TransformationStack.length + 1
      ∧ gOut.m_TransformationStack
          = (if isVisible cvc (preRender name cvc g) then render name (preRender name cvc g)
            else preRender name cvc g).m_TransformationStack
      ∧ renderChildrenLoop (.mk name tc (some cvc) hc :: rest) g
          = renderChildrenLoop rest (postRender gOut)
      ∧ (postRender gOut).m_TransformationStack = g.m_TransformationStack := by
  obtain ⟨top, p1, _, _⟩ := preRender_spec name cvc g
  have hstack : (if isVisible cvc (preRender name cvc g) then render name (preRender name cvc g)
      else preRender name cvc g).m_TransformationStack = g.m_TransformationStack ++ [top] := by
    split
    · rw [(render_spec name (preRender name cvc g)).1, p1]
    · exact p1
  obtain ⟨gOut, hr, hs, _, _⟩ := renderChildren_spec cvc (.mk name tc (some cvc) hc)
    (if isVisible cvc (preRender name cvc g) then render name (preRender name cvc g)
      else preRender name cvc g) h
  refine ⟨gOut, hr, ?_, hs, ?_, ?_⟩
  · rw [hstack]; simp
  · simp only [renderChildrenLoop, hr]
  · rw [(postRender_spec gOut).1, hs, hstack, List.dropLast_concat]

end NestingProofs

section NestingClaim

variable {M : Type} [Mul M] [One M]

/-- C10: on a hierarchy in which every node has a hierarchy component and every node below
the owner has a visual component, `renderChildren` returns, and the transformation stack after
the call is the stack before it, so its depth is the same; the calls it adds hold exactly
one `pushMatrix` and exactly one `popMatrix` per node below the owner, and they are nested:
in sibling order, each child's push, then the pushes and pops of the nodes below that child,
then the child's pop. In every visit of the loop the child's subtree is traversed with the
entry its `preRender` pushed on the stack, hands the stack back unchanged, and only then
does its `postRender` pop that entry. -/
theorem renderChildren_stack_balanced (this : VisualComponent M) (m_Owner : Entity M)
    (g : VisualComponentGraph M) (h : m_Owner.allVisual = true) :
    ∃ g1 added, renderChildren this m_Owner g = some g1
      ∧ g1.m_TransformationStack.length = g.m_TransformationStack.length
      ∧ g1.m_TransformationStack = g.m_TransformationStack
      ∧ pushCount g1.calls = pushCount g.calls + m_Owner.descendants
      ∧ popCount g1.calls = popCount g.calls + m_Owner.descendants
      ∧ g1.calls = g.calls ++ added
      ∧ stackOps added = Entity.nestingBelow m_Owner
      ∧ ∀ (name : String) (tc : Option M) (cvc : VisualComponent M)
          (hc : Option (List (Entity M))) (rest : List (Entity M))
          (gLoop : VisualComponentGraph M),
          Entity.allVisual (.mk name tc (some cvc) hc) = true →
          ∃ gOut, renderChildren cvc (.mk name tc (some cvc) hc)
                (if isVisible cvc (preRender name cvc gLoop) then
                  render name (preRender name cvc gLoop) else preRender name cvc gLoop)
                = some gOut
            ∧ (if isVisible cvc (preRender name cvc gLoop) then
                  render name (preRender name cvc gLoop)
                else preRender name cvc gLoop).m_TransformationStack.length
                = gLoop.m_TransformationStack.length + 1
            ∧ gOut.m_TransformationStack
                = (if isVisible cvc (preRender name cvc gLoop) then
                    render name (preRender name cvc gLoop)
                  else preRender name cvc gLoop).m_TransformationStack
            ∧ renderChildrenLoop (.mk name tc (some cvc) hc :: rest) gLoop
                = renderChildrenLoop rest (postRender gOut)
            ∧ (postRender gOut).m_TransformationStack = gLoop.m_TransformationStack := by
  obtain ⟨g1, hr, hs, hpu, hpo⟩ := renderChildren_spec this m_Owner g h
  obtain ⟨g2, added, hr2, hc, hn⟩ := renderChildren_nesting this m_Owner g h
  have hg : g2 = g1 := by
    rw [hr] at hr2
    exact (Option.some.inj hr2).symm
  rw [hg] at hc
  exact ⟨g1, added, hr, by rw [hs], hs, hpu, hpo, hc, hn,
    fun name tc cvc hcomp rest gLoop hv => visit_around_subtree name tc cvc hcomp rest gLoop hv⟩

end NestingClaim

/-- C10, at two concrete inputs: a node with zero children, and a root over a chain of two
nodes and a leaf, three descendants in all; the pushes and pops of the chain are nested. -/
theorem renderChildren_stack_balanced_witness :
    demoLeaf.allVisual = true
      ∧ demoRoot.allVisual = true
      ∧ (∃ g1, renderChildren demoRootVisual demoLeaf demoGraph = some g1
          ∧ g1.m_TransformationStack.length = 0 ∧ pushCount g1.calls = 0)
      ∧ (∃ g1 added, renderChildren demoRootVisual demoRoot demoGraph = some g1
          ∧ g1.m_TransformationStack.length = 0 ∧ pushCount g1.calls = 3
          ∧ popCount g1.calls = 3
          ∧ g1.calls = demoGraph.calls ++ added
          ∧ stackOps added
            = [StackOp.push, StackOp.push, StackOp.pop, StackOp.pop, StackOp.push,
               StackOp.pop]) := by
  obtain ⟨g0, _, h0, l0, _, p0, _⟩ :=
    renderChildren_stack_balanced demoRootVisual demoLeaf demoGraph rfl
  obtain ⟨g1, added, h1, l1, _, p1, q1, hc, hn, _⟩ :=
    renderChildren_stack_balanced demoRootVisual demoRoot demoGraph rfl
  exact ⟨rfl, rfl, ⟨g0, h0, l0, p0⟩, ⟨g1, added, h1, l1, p1, q1, hc, hn.trans (by decide)⟩⟩

/-! ## Sequences of requests -/

theorem createEntities_files (files : List String) (w : World) :
    (files.foldl createEntityFromFile w).files = w.files := by
  induction files generalizing w with
  | nil => rfl
  | cons f rest ih =>
    simp only [List.foldl_cons]
    rw [ih]
    unfold createEntityFromFile
    split <;> rfl

theorem ensureDirectory_files (w : World) (path : String) :
    (if !OS.IsExists w path then OS.CreateDirectoryName w path else w).files = w.files := by
  split <;> rfl

theorem materialize_files (x : External) (w : World) (levelPath : String)
    (openInEditor : Bool) : (materialize x w levelPath openInEditor).files = w.files := by
  simp only [materialize, World.log, World.broadcast, createEntities_files,
    ensureDirectory_files]

theorem openPreloadedLevel_files (x : External) (w : World) (levelPath : String)
    (openInEditor : Bool) :
    (openPreloadedLevel x w levelPath openInEditor).world.files = w.files := by
  cases h : LevelDescription.load x w levelPath with
  | error e => rw [openPreloadedLevel_error x w levelPath openInEditor e h, endLevel_files]
  | ok newLevel =>
    rw [openPreloadedLevel_ok x w levelPath openInEditor newLevel h]
    simp only [activate, World.broadcast, materialize_files, setCurrentLevel, endLevel_files]

theorem preloadLevel_files (x : External) (w : World) (levelPath : String) :
    (preloadLevel x w levelPath).world.files = w.files := by
  cases h : LevelDescription.load x w levelPath with
  | error e => rw [preloadLevel_error x w levelPath e h]
  | ok newLevel => rw [preloadLevel_ok x w levelPath newLevel h]; rfl

theorem openLevel_files (x : External) (w : World) (levelPath : String) (openInEditor : Bool) :
    (openLevel x w levelPath openInEditor).world.files = w.files := by
  cases h : LevelDescription.load x w levelPath with
  | error e => rw [openLevel_error x w levelPath openInEditor e h, endLevel_files]
  | ok newLevel =>
    rw [openLevel_ok x w levelPath openInEditor newLevel h, openPreloadedLevel_files]
    exact (openLevel_handover x w levelPath newLevel _ h).2.2.1

theorem serve_files (x : External) (w : World) (request : Request) :
    (serve x w request).files = w.files := by
  cases request with
  | preloadLevel levelPath => exact preloadLevel_files x w levelPath
  | openLevel levelPath openInEditor => exact openLevel_files x w levelPath openInEditor
  | openPreloadedLevel levelPath openInEditor =>
    exact openPreloadedLevel_files x w levelPath openInEditor
  | endLevel => exact endLevel_files x w

theorem serveAll_files (x : External) (requests : List Request) (w : World) :
    (serveAll x w requests).files = w.files := by
  induction requests generalizing w with
  | nil => rfl
  | cons r rest ih =>
    simp only [serveAll, List.foldl_cons] at ih ⊢
    rw [ih, serve_files]

theorem openLevel_manager (x : External) (w : World) (levelPath : String) (openInEditor : Bool)
    (newLevel : LevelDescription) (h : LevelDescription.load x w levelPath = .ok newLevel) :
    (openLevel x w levelPath openInEditor).world.manager
      = { m_CurrentLevel := newLevel
          m_ToUnload :=
            computeToUnload w.manager.m_CurrentLevel.m_Preloads newLevel.m_Preloads } := by
  obtain ⟨ho1, _, ho3, _, _⟩ := openLevel_handover x w levelPath newLevel
    ("Preloaded " ++ toString (x.Preload newLevel.m_Preloads) ++ " new resources") h
  have hload2 : LevelDescription.load x
      ((preloadLevel x (endLevel x w) levelPath).world.log
        (.print ("Preloaded " ++ toString (x.Preload newLevel.m_Preloads) ++ " new resources")))
      levelPath = .ok newLevel := by
    rw [load_congr x w _ levelPath ho3]; exact h
  rw [openLevel_ok x w levelPath openInEditor newLevel h,
    (openPreloadedLevel_trace x _ levelPath openInEditor newLevel hload2).1, ho1]

/-- What one request does to the pending to-unload list: it stays as it was unless a
descriptor loaded in `preloadLevel` or `openLevel`, and then it holds nothing the level at
that path preloads. -/
theorem serve_pending (x : External) (start : List String) (w : World) (request : Request)
    (last : Option String)
    (hNone : last = none → w.manager.m_ToUnload = start)
    (hSome : ∀ path level, last = some path → LevelDescription.load x w path = .ok level →
      ∀ r, r ∈ w.manager.m_ToUnload → r ∉ level.m_Preloads) :
    (lastPreloaded x w [request] last = none →
        (serve x w request).manager.m_ToUnload = start)
      ∧ ∀ path level, lastPreloaded x w [request] last = some path →
          LevelDescription.load x (serve x w request) path = .ok level →
          ∀ r, r ∈ (serve x w request).manager.m_ToUnload → r ∉ level.m_Preloads := by
  have hfiles := serve_files x w request
  cases request with
  | endLevel =>
    simp only [lastPreloaded, serve, endLevel_manager]
    refine ⟨hNone, fun path level hl hload => hSome path level hl ?_⟩
    rw [← load_endLevel]; exact hload
  | openPreloadedLevel levelPath openInEditor =>
    have hm : (openPreloadedLevel x w levelPath openInEditor).world.manager.m_ToUnload
        = w.manager.m_ToUnload := by
      cases h : LevelDescription.load x w levelPath with
      | error e =>
        rw [openPreloadedLevel_error x w levelPath openInEditor e h, endLevel_manager]
      | ok newLevel =>
        rw [(openPreloadedLevel_trace x w levelPath openInEditor newLevel h).1]
    simp only [lastPreloaded, serve, hm]
    refine ⟨hNone, fun path level hl hload => hSome path level hl ?_⟩
    rw [← load_congr x w _ path hfiles]; exact hload
  | preloadLevel levelPath =>
    cases h : LevelDescription.load x w levelPath with
    | error e =>
      simp only [lastPreloaded, serve, h, preloadLevel_error x w levelPath e h]
      exact ⟨hNone, hSome⟩
    | ok newLevel =>
      simp only [lastPreloaded, serve, h]
      refine ⟨fun hn => by simp at hn, fun path level hl hload r hr => ?_⟩
      have hp : path = levelPath := by simpa using hl.symm
      subst hp
      have hload1 : LevelDescription.load x w path = .ok level := by
        rw [← load_congr x w _ path (preloadLevel_files x w path)]; exact hload
      rw [h] at hload1
      have hlev : newLevel = level := by simpa using hload1
      subst hlev
      rw [preloadLevel_ok x w path newLevel h] at hr
      exact ((mem_computeToUnload _ _ r).mp hr).2
  | openLevel levelPath openInEditor =>
    cases h : LevelDescription.load x w levelPath with
    | error e =>
      simp only [lastPreloaded, serve, h, openLevel_error x w levelPath openInEditor e h,
        endLevel_manager]
      refine ⟨hNone, fun path level hl hload => hSome path level hl ?_⟩
      rw [← load_endLevel]; exact hload
    | ok newLevel =>
      simp only [lastPreloaded, serve, h]
      refine ⟨fun hn => by simp at hn, fun path level hl hload r hr => ?_⟩
      have hp : path = levelPath := by simpa using hl.symm
      subst hp
      have hload1 : LevelDescription.load x w path = .ok level := by
        rw [← load_congr x w _ path (openLevel_files x w path openInEditor)]; exact hload
      rw [h] at hload1
      have hlev : newLevel = level := by simpa using hload1
      subst hlev
      rw [openLevel_manager x w path openInEditor newLevel h] at hr
      exact ((mem_computeToUnload _ _ r).mp hr).2

theorem lastPreloaded_cons (x : External) (w : World) (request : Request)
    (rest : List Request) (last : Option String) :
    lastPreloaded x w (request :: rest) last
      = lastPreloaded x (serve x w request) rest (lastPreloaded x w [request] last) := by
  simp only [lastPreloaded]

/-- The pending to-unload list after a sequence of requests. -/
theorem serveAll_pending (x : External) (start : List String) (requests : List Request) :
    ∀ (w : World) (last : Option String),
      (last = none → w.manager.m_ToUnload = start) →
      (∀ path level, last = some path → LevelDescription.load x w path = .ok level →
        ∀ r, r ∈ w.manager.m_ToUnload → r ∉ level.m_Preloads) →
      (lastPreloaded x w requests last = none →
          (serveAll x w requests).manager.m_ToUnload = start)
        ∧ ∀ path level, lastPreloaded x w requests last = some path →
            LevelDescription.load x (serveAll x w requests) path = .ok level →
            ∀ r, r ∈ (serveAll x w requests).manager.m_ToUnload → r ∉ level.m_Preloads := by
  induction requests with
  | nil =>
    intro w last hNone hSome
    exact ⟨hNone, hSome⟩
  | cons request rest ih =>
    intro w last hNone hSome
    obtain ⟨s1, s2⟩ := serve_pending x start w request last hNone hSome
    have hstep := ih (serve x w request) (lastPreloaded x w [request] last) s1 s2
    rw [lastPreloaded_cons]
    simpa only [serveAll, List.foldl_cons] using hstep

/-- C2, as the code has it: a call `openPreloadedLevel(path)` whose descriptor loads passes
to `ResourceLoader::Unload` exactly one list, the one `m_ToUnload` holds at that point,
whichever call left it there, and a call whose descriptor does not load passes none. When
the last `preloadLevel` or `openLevel` whose descriptor loaded, anywhere in the sequence of
calls served before, was for the same path, that list holds no identifier of the preload
list of the level being opened; this covers `openPreloadedLevel(path)` directly after
`preloadLevel(path)` and the one inside `openLevel(path)`, where the list is the difference
computed against the level that was current. When no such call has been served, the list
is the one the manager started with. -/
theorem unload_spares_preloaded_level (x : External) (w : World) (levelPath : String)
    (openInEditor : Bool) (newLevel : LevelDescription)
    (h : LevelDescription.load x w levelPath = .ok newLevel) :
    (∃ added,
        (openPreloadedLevel x (preloadLevel x w levelPath).world levelPath openInEditor).world.calls
          = (preloadLevel x w levelPath).world.calls ++ added
        ∧ unloads added
          = [computeToUnload w.manager.m_CurrentLevel.m_Preloads newLevel.m_Preloads])
      ∧ (openPreloadedLevel x (preloadLevel x w levelPath).world levelPath
          openInEditor).world.manager.m_CurrentLevel = newLevel
      ∧ (∃ added,
          (openLevel x w levelPath openInEditor).world.calls = w.calls ++ added
          ∧ unloads added
            = [computeToUnload w.manager.m_CurrentLevel.m_Preloads newLevel.m_Preloads])
      ∧ (openLevel x w levelPath openInEditor).world.manager.m_CurrentLevel = newLevel
      ∧ (∀ r, r ∈ computeToUnload w.manager.m_CurrentLevel.m_Preloads newLevel.m_Preloads →
          r ∉ newLevel.m_Preloads)
      ∧ (∀ (world : World) (path : String) (editor : Bool),
          ∃ added, (openPreloadedLevel x world path editor).world.calls = world.calls ++ added
            ∧ (∀ level, LevelDescription.load x world path = .ok level →
                unloads added = [world.manager.m_ToUnload])
            ∧ (∀ e, LevelDescription.load x world path = .error e → unloads added = []))
      ∧ (∀ (requests : List Request) (path : String) (editor : Bool)
          (level : LevelDescription),
          lastPreloaded x w requests none = some path →
          LevelDescription.load x w path = .ok level →
          (∃ added,
              (openPreloadedLevel x (serveAll x w requests) path editor).world.calls
                = (serveAll x w requests).calls ++ added
              ∧ unloads added = [(serveAll x w requests).manager.m_ToUnload])
            ∧ (∀ r, r ∈ (serveAll x w requests).manager.m_ToUnload → r ∉ level.m_Preloads)
            ∧ (openPreloadedLevel x (serveAll x w requests) path
                editor).world.manager.m_CurrentLevel = level)
      ∧ ∀ (requests : List Request), lastPreloaded x w requests none = none →
          (serveAll x w requests).manager.m_ToUnload = w.manager.m_ToUnload := by
  have hp := preloadLevel_ok x w levelPath newLevel h
  have hload1 : LevelDescription.load x (preloadLevel x w levelPath).world levelPath
      = .ok newLevel := by
    rw [load_congr x w _ levelPath (by rw [hp]; rfl)]; exact h
  obtain ⟨hm1, ends, mc, begins, hc, hb, _, _, _, _, e5, m1, _⟩ :=
    openPreloadedLevel_trace x (preloadLevel x w levelPath).world levelPath openInEditor
      newLevel hload1
  have hto : (preloadLevel x w levelPath).world.manager.m_ToUnload
      = computeToUnload w.manager.m_CurrentLevel.m_Preloads newLevel.m_Preloads := by
    rw [hp]; rfl
  have hbegin : ∀ (l : List (Int × System)),
      unloads (l.map (fun s => Call.systemBegin s.1 s.2.name)) = [] := by
    intro l
    unfold unloads
    exact filterMap_map_none _ _ l (fun _ => rfl)
  obtain ⟨ho1, ho2, ho3, ho4, ho5⟩ := openLevel_handover x w levelPath newLevel
    ("Preloaded " ++ toString (x.Preload newLevel.m_Preloads) ++ " new resources") h
  have hload2 : LevelDescription.load x
      ((preloadLevel x (endLevel x w) levelPath).world.log
        (.print ("Preloaded " ++ toString (x.Preload newLevel.m_Preloads) ++ " new resources")))
      levelPath = .ok newLevel := by
    rw [load_congr x w _ levelPath ho3]; exact h
  obtain ⟨hm2, ends2, mc2, begins2, hc2, hb2, _, _, _, _, f5, n1, _⟩ :=
    openPreloadedLevel_trace x _ levelPath openInEditor newLevel hload2
  obtain ⟨ends0, hends0, _, _, _, _, g5⟩ := endLevel_calls x w
  have part1 : ∃ added,
      (openPreloadedLevel x (preloadLevel x w levelPath).world levelPath openInEditor).world.calls
        = (preloadLevel x w levelPath).world.calls ++ added
      ∧ unloads added
        = [computeToUnload w.manager.m_CurrentLevel.m_Preloads newLevel.m_Preloads] := by
    refine ⟨ends ++ mc ++ begins, ?_, ?_⟩
    · rw [hc]; simp only [List.append_assoc]
    · rw [unloads_append, unloads_append, e5, m1, hb, hbegin, hto]; rfl
  have part2 : ∃ added,
      (openLevel x w levelPath openInEditor).world.calls = w.calls ++ added
      ∧ unloads added
        = [computeToUnload w.manager.m_CurrentLevel.m_Preloads newLevel.m_Preloads] := by
    refine ⟨ends0 ++ [.preload newLevel.m_Preloads, .print
      ("Preloaded " ++ toString (x.Preload newLevel.m_Preloads) ++ " new resources")]
      ++ ends2 ++ mc2 ++ begins2, ?_, ?_⟩
    · rw [openLevel_ok x w levelPath openInEditor newLevel h, hc2, ho5, hends0]
      simp only [List.append_assoc]
    · simp only [unloads_append, g5, f5, n1, hb2, hbegin, ho1]
      rfl
  have part3 : ∀ (world : World) (path : String) (editor : Bool),
      ∃ added, (openPreloadedLevel x world path editor).world.calls = world.calls ++ added
        ∧ (∀ level, LevelDescription.load x world path = .ok level →
            unloads added = [world.manager.m_ToUnload])
        ∧ (∀ e, LevelDescription.load x world path = .error e → unloads added = []) := by
    intro world path editor
    cases hl : LevelDescription.load x world path with
    | error e =>
      obtain ⟨endsW, hcW, _, _, _, _, huW⟩ := endLevel_calls x world
      refine ⟨endsW, ?_, fun level hlev => by simp at hlev, fun _ _ => huW⟩
      rw [openPreloadedLevel_error x world path editor e hl]; exact hcW
    | ok level =>
      obtain ⟨_, endsW, mcW, beginsW, hcW, hbW, _, _, _, _, e5W, m1W, _⟩ :=
        openPreloadedLevel_trace x world path editor level hl
      refine ⟨endsW ++ mcW ++ beginsW, ?_, fun _ _ => ?_, fun e he => by simp at he⟩
      · rw [hcW]; simp only [List.append_assoc]
      · rw [unloads_append, unloads_append, e5W, m1W, hbW, hbegin]; rfl
  have part4 : ∀ (requests : List Request) (path : String) (editor : Bool)
      (level : LevelDescription),
      lastPreloaded x w requests none = some path →
      LevelDescription.load x w path = .ok level →
      (∃ added,
          (openPreloadedLevel x (serveAll x w requests) path editor).world.calls
            = (serveAll x w requests).calls ++ added
          ∧ unloads added = [(serveAll x w requests).manager.m_ToUnload])
        ∧ (∀ r, r ∈ (serveAll x w requests).manager.m_ToUnload → r ∉ level.m_Preloads)
        ∧ (openPreloadedLevel x (serveAll x w requests) path
            editor).world.manager.m_CurrentLevel = level := by
    intro requests path editor level hlast hlev
    have hlev1 : LevelDescription.load x (serveAll x w requests) path = .ok level := by
      rw [load_congr x w _ path (serveAll_files x requests w)]; exact hlev
    obtain ⟨added, hcA, huA, _⟩ := part3 (serveAll x w requests) path editor
    refine ⟨⟨added, hcA, huA level hlev1⟩, ?_, ?_⟩
    · exact (serveAll_pending x w.manager.m_ToUnload requests w none (fun _ => rfl)
        (fun _ _ hn => by simp at hn)).2 path level hlast hlev1
    · rw [(openPreloadedLevel_trace x _ path editor level hlev1).1]
  refine ⟨part1, ?_, part2, ?_, ?_, part3, part4, ?_⟩
  · rw [hm1]
  · rw [openLevel_ok x w levelPath openInEditor newLevel h, hm2]
  · intro r hr
    exact ((mem_computeToUnload _ _ r).mp hr).2
  · intro requests hlast
    exact (serveAll_pending x w.manager.m_ToUnload requests w none (fun _ => rfl)
      (fun _ _ hn => by simp at hn)).1 hlast

/-- C2, at concrete inputs: level B is preloaded while level A is open and then opened, and
the one list unloaded is `mesh1`, which level B does not preload; the same holds when
`endLevel` is served between the two calls. -/
theorem unload_spares_preloaded_level_witness :
    LevelDescription.load demoExternal demoOpenA "levels/B" = .ok levelB
      ∧ (∃ added,
          (openPreloadedLevel demoExternal (preloadLevel demoExternal demoOpenA "levels/B").world
              "levels/B" false).world.calls
            = (preloadLevel demoExternal demoOpenA "levels/B").world.calls ++ added
          ∧ unloads added = [["mesh1"]])
      ∧ (∀ r, r ∈ ["mesh1"] → r ∉ levelB.m_Preloads)
      ∧ lastPreloaded demoExternal demoOpenA [.preloadLevel "levels/B", .endLevel] none
          = some "levels/B"
      ∧ (∃ added,
          (openPreloadedLevel demoExternal
              (serveAll demoExternal demoOpenA [.preloadLevel "levels/B", .endLevel])
              "levels/B" false).world.calls
            = (serveAll demoExternal demoOpenA [.preloadLevel "levels/B", .endLevel]).calls
              ++ added
          ∧ unloads added = [["mesh1"]]) :=
  ⟨rfl, (unload_spares_preloaded_level demoExternal demoOpenA "levels/B" false levelB rfl).1,
    (unload_spares_preloaded_level demoExternal demoOpenA "levels/B" false levelB rfl).2.2.2.2.1,
    rfl,
    ((unload_spares_preloaded_level demoExternal demoOpenA "levels/B" false levelB
      rfl).2.2.2.2.2.2.1 [.preloadLevel "levels/B", .endLevel] "levels/B" false levelB
      rfl rfl).1⟩

end Rootex
